import Mathlib

/-
Verification of the partition buffer, WAL replay, persist worker and
compactor filter logic of the ingester/compactor crates, as a shallow
embedding in Lean 4.

Sources embedded:
  * ingester/src/buffer_tree/partition.rs       (PartitionData)
  * ingester/src/init/wal_replay.rs             (replay / replay_file)
  * ingester/src/persist/worker.rs              (run_task / update_catalog_sort_key)
  * compactor/src/components/post_classification_partition_filter/possible_progress.rs
  * compactor/src/driver.rs                     (execute_plan)

Sub-modules of the ingester crate that are referenced but whose sources are
not part of this tree (mutable_batch, the partition data buffer FSM, the
persisting list, the partition counter, OwnedProjection, the persist
compaction step and persist context) are modelled from the specification;
each such definition carries a doc comment starting with
"Modelled from the spec:".
-/

namespace IoxSpec

/-! ## Partition buffer data model -/

/-- Modelled from the spec: a row of a `mutable_batch::MutableBatch`
(crate `mutable_batch` is not part of these sources).  A row is an
association list from column name to (integer-encoded) value; line-protocol
rows always carry a `time` column. -/
structure Row where
  cols : List (String × Int)
deriving DecidableEq

/-- Modelled from the spec: a column batch, viewed row-wise. -/
abbrev Batch := List Row

/-- First value stored under column `name` in an association list. -/
def lookupCol (name : String) : List (String × Int) → Option Int
  | [] => none
  | e :: rest => if e.1 = name then some e.2 else lookupCol name rest

/-- The value of the `time` column of a row. -/
def rowTime (r : Row) : Option Int :=
  lookupCol "time" r.cols

/-- Modelled from the spec: `OwnedProjection` (crate::query::projection is
not part of these sources).  `none` is the default projection selecting all
columns; `some cs` selects exactly the named columns. -/
abbrev OwnedProjection := Option (List String)

/-- Whether the projection includes the `time` column; mirrors
`projection.columns().map(|v| v.iter().any(|v| v == TIME_COLUMN_NAME)).unwrap_or(true)`
in `PartitionData::get_query_data`. -/
def timeIncluded : OwnedProjection → Bool
  | none => true
  | some cs => cs.contains "time"

/-- Modelled from the spec: applying a projection to a row keeps exactly the
selected columns (projection selects columns, never rows). -/
def projRow : OwnedProjection → Row → Row
  | none, r => r
  | some cs, r => ⟨r.cols.filter (fun e => cs.contains e.1)⟩

/-- Timestamp summary `TimestampMinMax` from `data_types`. -/
structure TsMinMax where
  tmin : Int
  tmax : Int
deriving DecidableEq

/-- The reduction step used by `PartitionData::timestamp_stats`:
componentwise min/max. -/
def combineTs (a b : TsMinMax) : TsMinMax :=
  ⟨min a.tmin b.tmin, max a.tmax b.tmax⟩

/-- Modelled from the spec: the `O(1)` per-batch timestamp statistics kept by
the data buffer: min/max over the `time` column of the batch, `none` for a
batch without timestamps. -/
def batchTs (b : Batch) : Option TsMinMax :=
  (b.filterMap rowTime).foldl
    (fun acc t =>
      match acc with
      | none => some ⟨t, t⟩
      | some m => some ⟨min m.tmin t, max m.tmax t⟩)
    none

/-- The `Iterator::reduce` over per-batch statistics used by
`PartitionData::timestamp_stats` and the query adaptor. -/
def reduceTs (l : List (Option TsMinMax)) : Option TsMinMax :=
  (l.filterMap id).foldl
    (fun acc m =>
      match acc with
      | none => some m
      | some a => some (combineTs a m))
    none

/-- Embeds `BufferWriteError`: per spec §7 the partition buffer surfaces `Limit` on
namespace partition-counter overflow and no other error. -/
inductive BufferWriteError
  | limit
deriving DecidableEq

/-- Embeds `PartitionData` (ingester/src/buffer_tree/partition.rs).  The persisting
list is kept oldest-first so that forward iteration matches write order; the
`counter`/`counterMax` pair embeds the shared per-namespace
`PartitionCounter` (its current value and the namespace cap). -/
structure PartitionData where
  is_empty : Bool
  buffer : Batch
  persisting : List (Nat × Batch)
  started_persistence_count : Nat
  completed_persistence_count : Nat
  counter : Nat
  counterMax : Nat
deriving DecidableEq

/-- Modelled from the spec: `PartitionCounter::inc` (buffer_tree/partition/counter.rs
is not part of these sources): reject with `Limit` if the increment would
exceed the namespace cap. -/
def counter_inc (count cmax : Nat) : Except BufferWriteError Nat :=
  if count < cmax then .ok (count + 1) else .error .limit

/-- Embeds `PartitionData::buffer_write`.  If the partition was empty the namespace
counter is incremented first (an error propagates before any state change),
then the cached `is_empty` flag is cleared and the write appended.  The
append itself is modelled from the spec: the buffer FSM accepts the batch
and never errors (spec §7: `Limit` on counter overflow; never other
errors). -/
def buffer_write (p : PartitionData) (mb : Batch) :
    Except BufferWriteError Unit × PartitionData :=
  if p.is_empty then
    match counter_inc p.counter p.counterMax with
    | .error e => (.error e, p)
    | .ok c =>
        let p := { p with counter := c, is_empty := false }
        (.ok (), { p with buffer := p.buffer ++ mb })
  else
    (.ok (), { p with buffer := p.buffer ++ mb })

/-- Embeds `PartitionData::mark_persisting`.  Returns `none` on a (release-mode)
assertion failure; otherwise `some (handle?, p')` where `handle?` is the
`PersistingData` returned to the caller (`none` when the live buffer held no
data).  The buffer is swapped for an empty one and pushed onto the tail of
the persisting list tagged with a fresh `BatchIdent`. -/
def mark_persisting (p : PartitionData) :
    Option (Option (Nat × Batch) × PartitionData) :=
  if p.buffer.isEmpty then
    some (none, p)
  else if p.counter = 0 then
    none
  else
    let ident := p.started_persistence_count + 1
    some (some (ident, p.buffer),
      { p with
          buffer := [],
          started_persistence_count := ident,
          persisting := p.persisting ++ [(ident, p.buffer)] })

/-- Embeds `PartitionData::mark_persisted`.  Removes the batch identified by
`ident` from the persisting list (panics — `none` — if absent, or if the
namespace counter assertion fails), increments the completed count, and on
the non-empty → empty transition decrements the namespace counter and sets
the cached emptiness flag. -/
def mark_persisted (p : PartitionData) (ident : Nat) : Option PartitionData :=
  if p.persisting.any (fun e => e.1 = ident) then
    if p.counter = 0 then
      none
    else
      if (p.persisting.filter (fun e => ¬ e.1 = ident)).isEmpty && p.buffer.isEmpty then
        some { p with
            persisting := p.persisting.filter (fun e => ¬ e.1 = ident),
            completed_persistence_count := p.completed_persistence_count + 1,
            counter := p.counter - 1,
            is_empty := true }
      else
        some { p with
            persisting := p.persisting.filter (fun e => ¬ e.1 = ident),
            completed_persistence_count := p.completed_persistence_count + 1 }
  else
    none

/-- Modelled from the spec: `PersistingList::rows` — the summed row count of
the persisting batches. -/
def plRows (pl : List (Nat × Batch)) : Nat :=
  (pl.map (fun e => e.2.length)).sum

/-- Embeds `PartitionData::rows`: persisting rows plus live buffer rows. -/
def PartitionData.rows (p : PartitionData) : Nat :=
  plRows p.persisting + p.buffer.length

/-- Embeds `PartitionData::timestamp_stats`: the persisting batches' statistics
chained with the buffer's and reduced with componentwise min/max. -/
def timestamp_stats (p : PartitionData) : Option TsMinMax :=
  reduceTs ((p.persisting.map (fun e => batchTs e.2)) ++ [batchTs p.buffer])

/-- Modelled from the spec: `DataBuffer::get_query_data` — the buffer FSM
yields a snapshot of the buffered rows under the projection, and yields no
batch at all when it holds no rows. -/
def bufferQueryData (proj : OwnedProjection) (b : Batch) : Option Batch :=
  if b.isEmpty then none else some (b.map (projRow proj))

/-- Embeds `PartitionData::get_query_data`: the persisting batches (oldest first)
prepended to the live buffer's data, all under the projection; `none` iff no
batch results. -/
def get_query_data (p : PartitionData) (proj : OwnedProjection) :
    Option (List Batch) :=
  let buffered := bufferQueryData proj p.buffer
  let data := p.persisting.map (fun e => e.2.map (projRow proj)) ++ buffered.toList
  if data.isEmpty then none else some data

/-- Modelled from the spec: `QueryAdaptor::num_rows` — total rows across the
returned record batches. -/
def qRows (data : List Batch) : Nat :=
  (data.map List.length).sum

/-- Modelled from the spec: `QueryAdaptor::ts_min_max` — the reduced
timestamp summary of the returned record batches. -/
def qTsMinMax (data : List Batch) : Option TsMinMax :=
  reduceTs (data.map batchTs)

/-! ## Operation sequences over a partition -/

/-- One operation applied to a `PartitionData`. -/
inductive POp
  | write (mb : Batch)
  | persistStart
  | persistDone (ident : Nat)
deriving DecidableEq

/-- Apply a single operation; `none` models a panic (an assertion failure or
a `mark_persisted` call with an unknown handle).  A `buffer_write` that
fails with `Limit` leaves the caller holding the partition in its returned
state. -/
def applyOp (p : PartitionData) : POp → Option PartitionData
  | .write mb => some (buffer_write p mb).2
  | .persistStart => (mark_persisting p).map (·.2)
  | .persistDone i => mark_persisted p i

/-- Apply a sequence of operations left to right. -/
def runOps (p : PartitionData) : List POp → Option PartitionData
  | [] => some p
  | op :: ops => (applyOp p op).bind (fun p' => runOps p' ops)

/-- The structural emptiness test `persisting.is_empty() && buffer.rows() == 0`. -/
def StructEmpty (p : PartitionData) : Bool :=
  p.persisting.isEmpty && p.buffer.isEmpty

/-- The cached-flag invariant asserted by `PartitionData::is_empty`. -/
def Inv (p : PartitionData) : Prop :=
  p.is_empty = StructEmpty p

instance instDecidableInv (p : PartitionData) : Decidable (Inv p) :=
  inferInstanceAs (Decidable (p.is_empty = StructEmpty p))

/-- A fresh `PartitionData` as built by `PartitionData::new`, sharing a
namespace counter currently at `c` with cap `cmax`. -/
def initPartition (c cmax : Nat) : PartitionData :=
  { is_empty := true
    buffer := []
    persisting := []
    started_persistence_count := 0
    completed_persistence_count := 0
    counter := c
    counterMax := cmax }

lemma structEmpty_iff (p : PartitionData) :
    StructEmpty p = true ↔ p.persisting = [] ∧ p.buffer = [] := by
  simp [StructEmpty, List.isEmpty_iff]

/-- A write operation always carries at least one row (line-protocol batches
are never empty; WAL replay skips empty operations before buffering). -/
def WfOp : POp → Bool
  | .write mb => ¬ mb.isEmpty
  | _ => true

lemma buffer_write_empty_ok (p : PartitionData) (mb : Batch)
    (he : p.is_empty = true) (hc : p.counter < p.counterMax) :
    buffer_write p mb =
      (.ok (), { p with counter := p.counter + 1, is_empty := false,
                        buffer := p.buffer ++ mb }) := by
  simp [buffer_write, counter_inc, he, hc]

lemma buffer_write_empty_limit (p : PartitionData) (mb : Batch)
    (he : p.is_empty = true) (hc : ¬ p.counter < p.counterMax) :
    buffer_write p mb = (.error .limit, p) := by
  simp [buffer_write, counter_inc, he, hc]

lemma buffer_write_nonempty (p : PartitionData) (mb : Batch)
    (he : p.is_empty = false) :
    buffer_write p mb = (.ok (), { p with buffer := p.buffer ++ mb }) := by
  simp [buffer_write, he]

lemma mark_persisting_data (p : PartitionData)
    (hb : ¬ p.buffer.isEmpty) (hc : ¬ p.counter = 0) :
    mark_persisting p =
      some (some (p.started_persistence_count + 1, p.buffer),
        { p with buffer := [],
                 started_persistence_count := p.started_persistence_count + 1,
                 persisting :=
                   p.persisting ++ [(p.started_persistence_count + 1, p.buffer)] }) := by
  simp [mark_persisting, hb, hc]

lemma mark_persisted_emptying (p : PartitionData) (i : Nat)
    (hmem : p.persisting.any (fun e => e.1 = i))
    (hc : ¬ p.counter = 0)
    (hdone : ((p.persisting.filter (fun e => ¬ e.1 = i)).isEmpty
                && p.buffer.isEmpty) = true) :
    mark_persisted p i =
      some { p with persisting := p.persisting.filter (fun e => ¬ e.1 = i),
                    completed_persistence_count := p.completed_persistence_count + 1,
                    counter := p.counter - 1, is_empty := true } := by
  rw [mark_persisted, if_pos hmem, if_neg hc, if_pos hdone]

lemma mark_persisted_remaining (p : PartitionData) (i : Nat)
    (hmem : p.persisting.any (fun e => e.1 = i))
    (hc : ¬ p.counter = 0)
    (hdone : ¬ ((p.persisting.filter (fun e => ¬ e.1 = i)).isEmpty
                && p.buffer.isEmpty) = true) :
    mark_persisted p i =
      some { p with persisting := p.persisting.filter (fun e => ¬ e.1 = i),
                    completed_persistence_count :=
                      p.completed_persistence_count + 1 } := by
  rw [mark_persisted, if_pos hmem, if_neg hc, if_neg hdone]

lemma applyOp_inv_counter (p : PartitionData) (op : POp) (p' : PartitionData)
    (hwf : WfOp op) (hInv : Inv p) (h : applyOp p op = some p') :
    Inv p' ∧
    (p.is_empty = true → p'.is_empty = false → p'.counter = p.counter + 1) ∧
    (p.is_empty = false → p'.is_empty = true → p'.counter + 1 = p.counter) ∧
    (p.is_empty = p'.is_empty → p'.counter = p.counter) := by
  cases op with
  | write mb =>
    by_cases he : p.is_empty = true
    · by_cases hc : p.counter < p.counterMax
      · rw [applyOp, buffer_write_empty_ok p mb he hc, Option.some_inj] at h
        subst h
        have hse : p.persisting = [] ∧ p.buffer = [] :=
          (structEmpty_iff p).mp (hInv ▸ he)
        have hmb : mb ≠ [] := by simpa [WfOp, List.isEmpty_iff] using hwf
        refine ⟨?_, fun _ _ => rfl, ?_, ?_⟩
        · show false = StructEmpty _
          rw [StructEmpty]
          simp [hse.1, hse.2, List.isEmpty_iff, hmb]
        · intro h1 _; exact nomatch (he.symm.trans h1 : (true : Bool) = false)
        · intro h1
          exact nomatch (he.symm.trans h1 : (true : Bool) = false)
      · rw [applyOp, buffer_write_empty_limit p mb he hc, Option.some_inj] at h
        subst h
        refine ⟨hInv, ?_, ?_, fun _ => rfl⟩
        · intro h1 h2; exact nomatch (h1.symm.trans h2 : (true : Bool) = false)
        · intro h1 _; exact nomatch (he.symm.trans h1 : (true : Bool) = false)
    · have he' : p.is_empty = false := by simpa using he
      rw [applyOp, buffer_write_nonempty p mb he', Option.some_inj] at h
      subst h
      have hne : ¬ (p.persisting = [] ∧ p.buffer = []) := by
        intro hcon
        rw [Inv, (structEmpty_iff p).mpr hcon] at hInv
        exact he hInv
      refine ⟨?_, ?_, ?_, fun _ => rfl⟩
      · show p.is_empty = StructEmpty _
        rw [StructEmpty]
        rcases not_and_or.mp hne with h3 | h3 <;>
          simp [List.isEmpty_iff, h3, he']
      · intro h1 _; exact nomatch (he'.symm.trans h1 : (false : Bool) = true)
      · intro _ h2
        exact nomatch (he'.symm.trans h2 : (false : Bool) = true)
  | persistStart =>
    by_cases hb : p.buffer.isEmpty
    · rw [applyOp, mark_persisting, if_pos hb] at h
      simp only [Option.map_some', Option.some_inj] at h
      subst h
      refine ⟨hInv, ?_, ?_, fun _ => rfl⟩
      · intro h1 h2; exact nomatch (h1.symm.trans h2 : (true : Bool) = false)
      · intro h1 h2; exact nomatch (h1.symm.trans h2 : (false : Bool) = true)
    · by_cases hc : p.counter = 0
      · rw [applyOp, mark_persisting, if_neg hb, if_pos hc] at h; cases h
      · rw [applyOp, mark_persisting_data p hb hc] at h
        simp only [Option.map_some', Option.some_inj] at h
        subst h
        have hbb : p.buffer.isEmpty = false := by simpa using hb
        have hne : p.is_empty = false := by
          rw [Inv, StructEmpty] at hInv
          rw [hInv, hbb, Bool.and_false]
        refine ⟨?_, ?_, ?_, fun _ => rfl⟩
        · show p.is_empty = StructEmpty _
          rw [StructEmpty]
          simp [hne, List.isEmpty_iff]
        · intro h1 _; exact nomatch (hne.symm.trans h1 : (false : Bool) = true)
        · intro _ h2; exact nomatch (hne.symm.trans h2 : (false : Bool) = true)
  | persistDone i =>
    by_cases hmem : p.persisting.any (fun e => e.1 = i)
    · by_cases hc : p.counter = 0
      · rw [applyOp, mark_persisted, if_pos hmem, if_pos hc] at h; cases h
      · have hpne : ¬ p.persisting = [] := by
          intro hnil; rw [hnil] at hmem; cases hmem
        have hne : p.is_empty = false := by
          rw [Inv, StructEmpty] at hInv
          rw [hInv]
          simp [List.isEmpty_iff, hpne]
        by_cases hdone :
            ((p.persisting.filter (fun e => ¬ e.1 = i)).isEmpty
              && p.buffer.isEmpty) = true
        · rw [applyOp, mark_persisted_emptying p i hmem hc hdone,
            Option.some_inj] at h
          subst h
          refine ⟨?_, ?_, ?_, ?_⟩
          · show true = StructEmpty _
            rw [StructEmpty]
            exact hdone.symm
          · intro h1 _; exact nomatch (hne.symm.trans h1 : (false : Bool) = true)
          · intro _ _
            show p.counter - 1 + 1 = p.counter
            omega
          · intro h1
            exact nomatch ((hne.symm.trans h1).symm : (true : Bool) = false)
        · rw [applyOp, mark_persisted_remaining p i hmem hc hdone,
            Option.some_inj] at h
          subst h
          refine ⟨?_, ?_, ?_, fun _ => rfl⟩
          · show p.is_empty = StructEmpty _
            rw [StructEmpty]
            rw [hne]
            exact (Bool.not_eq_true _ ▸ hdone : _ = false).symm
          · intro h1 _; exact nomatch (hne.symm.trans h1 : (false : Bool) = true)
          · intro _ h2; exact nomatch (hne.symm.trans h2 : (false : Bool) = true)
    · rw [applyOp, mark_persisted, if_neg hmem] at h; cases h

lemma runOps_inv (p : PartitionData) (ops : List POp) (p' : PartitionData)
    (hwf : ∀ op ∈ ops, WfOp op) (hInv : Inv p) (h : runOps p ops = some p') :
    Inv p' := by
  induction ops generalizing p with
  | nil => simp only [runOps, Option.some_inj] at h; subst h; exact hInv
  | cons op rest ih =>
    simp only [runOps, Option.bind_eq_some] at h
    obtain ⟨q, hq, hrest⟩ := h
    exact ih q (fun o ho => hwf o (List.mem_cons_of_mem _ ho))
      (applyOp_inv_counter p op q (hwf op (List.mem_cons_self _ _)) hInv hq).1 hrest

/-- C1.  For every sequence of `buffer_write` / `mark_persisting` /
`mark_persisted` operations on a partition, after each operation the cached
`is_empty` flag equals the structural test (`persisting` list empty and the
buffer holding zero rows), and every empty→non-empty or non-empty→empty
transition changes the per-namespace non-empty-partition counter by exactly
one (all other steps leave it unchanged). -/
theorem C1_is_empty_flag_and_counter :
    (∀ (p : PartitionData) (ops : List POp) (p' : PartitionData),
        (∀ op ∈ ops, WfOp op) → Inv p → runOps p ops = some p' → Inv p') ∧
    (∀ (p : PartitionData) (op : POp) (p' : PartitionData),
        WfOp op → Inv p → applyOp p op = some p' →
          (p.is_empty = true → p'.is_empty = false → p'.counter = p.counter + 1) ∧
          (p.is_empty = false → p'.is_empty = true → p'.counter + 1 = p.counter) ∧
          (p.is_empty = p'.is_empty → p'.counter = p.counter)) := by
  constructor
  · exact runOps_inv
  · intro p op p' hwf hInv h
    exact (applyOp_inv_counter p op p' hwf hInv h).2

/-- Witness for C1: a concrete two-operation run (a write into an empty
partition, then a persist) from a fresh partition, with the invariant and
counter change evaluated on the results. -/
theorem C1_is_empty_flag_and_counter_witness :
    Inv { is_empty := false, buffer := [],
          persisting := [(1, [⟨[("time", 1), ("x", 2)]⟩])],
          started_persistence_count := 1, completed_persistence_count := 0,
          counter := 1, counterMax := 5 } ∧
    PartitionData.counter
        { is_empty := false, buffer := [⟨[("time", 1), ("x", 2)]⟩],
          persisting := [],
          started_persistence_count := 0, completed_persistence_count := 0,
          counter := 1, counterMax := 5 } =
      (initPartition 0 5).counter + 1 := by
  constructor
  · exact C1_is_empty_flag_and_counter.1 (initPartition 0 5)
      [POp.write [⟨[("time", 1), ("x", 2)]⟩], POp.persistStart] _
      (by decide) (by decide) (by decide)
  · exact (C1_is_empty_flag_and_counter.2 (initPartition 0 5)
      (POp.write [⟨[("time", 1), ("x", 2)]⟩]) _
      (by decide) (by decide) (by decide)).1 rfl rfl

/-! ## C10: a rejected write on an empty partition is atomic -/

/-- C10.  If `buffer_write` is called on an empty partition and the
per-namespace non-empty-partition counter increment fails (the cap is
reached), the call returns the `Limit` error and the partition is returned
unchanged: it still reports empty and holds zero rows. -/
theorem C10_buffer_write_limit_atomic :
    ∀ (p : PartitionData) (mb : Batch),
      Inv p → p.is_empty = true → p.counterMax ≤ p.counter →
        buffer_write p mb = (.error .limit, p) ∧
        (buffer_write p mb).2.is_empty = true ∧
        (buffer_write p mb).2.rows = 0 := by
  intro p mb hInv he hc
  have hlt : ¬ p.counter < p.counterMax := by omega
  have hbw := buffer_write_empty_limit p mb he hlt
  refine ⟨hbw, ?_, ?_⟩
  · rw [hbw]; exact he
  · rw [hbw]
    have hse := (structEmpty_iff p).mp (hInv ▸ he)
    simp [PartitionData.rows, plRows, hse.1, hse.2]

/-- Witness for C10: a fresh partition whose namespace counter already sits
at the cap rejects a write and is left untouched. -/
theorem C10_buffer_write_limit_atomic_witness :
    buffer_write (initPartition 3 3) [⟨[("time", 1), ("x", 9)]⟩] =
      (.error .limit, initPartition 3 3) ∧
    (buffer_write (initPartition 3 3) [⟨[("time", 1), ("x", 9)]⟩]).2.is_empty = true ∧
    (buffer_write (initPartition 3 3) [⟨[("time", 1), ("x", 9)]⟩]).2.rows = 0 :=
  C10_buffer_write_limit_atomic (initPartition 3 3) _ (by decide) (by decide)
    (by decide)

/-! ## C2: out-of-order retirement of persisting snapshots -/

/-- A single-field row `x=v` at time `t`, as written by the out-of-order
persist scenario. -/
def mkRow (t v : Int) : Row :=
  ⟨[("time", t), ("x", v)]⟩

/-- The `x` column values of an unprojected query against the partition, in
returned row order. -/
def queryXValues (p : PartitionData) : Option (List Int) :=
  (get_query_data p none).map
    (fun data => data.flatten.filterMap (fun r => lookupCol "x" r.cols))

/-- Row-level upsert resolution over the concatenated query output:
later rows with the same timestamp win. -/
def dedupByTime (rows : List Row) : List Row :=
  rows.foldl (fun acc r => acc.filter (fun s => ¬ rowTime s = rowTime r) ++ [r]) []

/-- The schedule exactly as the claim states it: writes `x=1..4`, with
snapshots taken after writes 2, 3 and 4 (handles are the batch idents 1, 2
and 3). -/
def c2Stated : List POp :=
  [.write [mkRow 42 1], .write [mkRow 42 2], .persistStart,
   .write [mkRow 42 3], .persistStart,
   .write [mkRow 42 4], .persistStart]

/-- Counterexample for C2 as stated.  Under the claim's schedule (snapshots
after writes 2, 3 and 4), the query after `mark_persisted(h2)` returns the
values `[1, 2, 4]`, not the claimed `{1, 3, 4}`, and after all three
handles are retired the partition is empty and the query returns no data
rather than the claimed final row `x=4`. -/
theorem C2_out_of_order_persist_counterexample :
    (runOps (initPartition 0 5) (c2Stated ++ [.persistDone 2])).bind queryXValues
        = some [1, 2, 4] ∧
    ((some [1, 2, 4] : Option (List Int)) = some [1, 3, 4]) = False ∧
    (runOps (initPartition 0 5)
        (c2Stated ++ [.persistDone 2, .persistDone 3, .persistDone 1])).bind
        queryXValues = none := by
  refine ⟨by decide, by decide, by decide⟩

/-- The schedule with the snapshot points the code (and its own test suite)
actually uses: snapshots after writes 1, 2 and 3; the first query is taken
after write 2. -/
def c2Fixed1 : List POp :=
  [.write [mkRow 42 1], .persistStart, .write [mkRow 42 2]]

def c2Fixed2 : List POp :=
  c2Fixed1 ++ [.persistStart, .write [mkRow 42 3], .persistStart,
               .write [mkRow 42 4], .persistDone 2]

def c2Fixed3 : List POp :=
  c2Fixed2 ++ [.persistDone 3]

def c2Fixed4 : List POp :=
  c2Fixed3 ++ [.persistDone 1]

/-- C2 (amended).  With writes `x=1..4` (sequence 1..4) and snapshots taken
after writes 1, 2 and 3 yielding handles h1, h2, h3, the handles may be
retired out of acquisition order as `mark_persisted(h2); (h3); (h1)`: the
query after write 2 shows values `{1,2}`, the queries after the successive
marks show `{1,3,4}`, `{1,4}`, `{4}`, each preserving write order among the
still-live snapshots and buffer, and upsert resolution of the final query
yields the single row `x=4`. -/
theorem C2_out_of_order_persist_amended :
    (runOps (initPartition 0 5) c2Fixed1).bind queryXValues = some [1, 2] ∧
    (runOps (initPartition 0 5) c2Fixed2).bind queryXValues = some [1, 3, 4] ∧
    (runOps (initPartition 0 5) c2Fixed3).bind queryXValues = some [1, 4] ∧
    (runOps (initPartition 0 5) c2Fixed4).bind queryXValues = some [4] ∧
    (runOps (initPartition 0 5) c2Fixed4).bind
        (fun p => (get_query_data p none).map (fun d => dedupByTime d.flatten))
      = some [mkRow 42 4] := by
  refine ⟨by decide, by decide, by decide, by decide, by decide⟩

/-! ## C3: query data row count and timestamp statistics -/

/-- Well-formed partition content: every buffered or persisting row carries a
timestamp, and persisting snapshots are never empty (the buffer FSM only
produces non-empty snapshots). -/
def WfData (p : PartitionData) : Prop :=
  (∀ r ∈ p.buffer, (rowTime r).isSome) ∧
  (∀ e ∈ p.persisting, e.2 ≠ [] ∧ ∀ r ∈ e.2, (rowTime r).isSome)

lemma lookupCol_filter_mem (cs : List String) (l : List (String × Int))
    (h : cs.contains "time" = true) :
    lookupCol "time" (l.filter (fun e => cs.contains e.1)) = lookupCol "time" l := by
  induction l with
  | nil => rfl
  | cons e rest ih =>
    by_cases he : e.1 = "time"
    · rw [List.filter_cons]
      have : cs.contains e.1 = true := by rw [he]; exact h
      simp only [this, if_pos trivial]
      rw [lookupCol, lookupCol, if_pos he, if_pos he]
    · rw [List.filter_cons]
      by_cases hk : cs.contains e.1 = true
      · simp only [hk, if_pos trivial]
        rw [lookupCol, lookupCol, if_neg he, if_neg he]
        exact ih
      · simp only [Bool.not_eq_true] at hk
        simp only [hk]
        rw [lookupCol, if_neg he]
        simpa using ih

lemma lookupCol_filter_not_mem (cs : List String) (l : List (String × Int))
    (h : cs.contains "time" = false) :
    lookupCol "time" (l.filter (fun e => cs.contains e.1)) = none := by
  induction l with
  | nil => rfl
  | cons e rest ih =>
    rw [List.filter_cons]
    by_cases hk : cs.contains e.1 = true
    · simp only [hk, if_pos trivial]
      have he : ¬ e.1 = "time" := by
        intro hcon; rw [hcon] at hk; rw [hk] at h; cases h
      rw [lookupCol, if_neg he]
      exact ih
    · simp only [Bool.not_eq_true] at hk
      simp only [hk]
      simpa using ih

lemma rowTime_projRow_included (proj : OwnedProjection) (r : Row)
    (h : timeIncluded proj = true) :
    rowTime (projRow proj r) = rowTime r := by
  cases proj with
  | none => rfl
  | some cs => exact lookupCol_filter_mem cs r.cols h

lemma rowTime_projRow_excluded (proj : OwnedProjection) (r : Row)
    (h : timeIncluded proj = false) :
    rowTime (projRow proj r) = none := by
  cases proj with
  | none => cases h
  | some cs => exact lookupCol_filter_not_mem cs r.cols h

lemma batchTs_proj_included (proj : OwnedProjection) (b : Batch)
    (h : timeIncluded proj = true) :
    batchTs (b.map (projRow proj)) = batchTs b := by
  rw [batchTs, batchTs, List.filterMap_map]
  congr 1
  exact List.filterMap_congr (fun r _ => rowTime_projRow_included proj r h)

lemma batchTs_proj_excluded (proj : OwnedProjection) (b : Batch)
    (h : timeIncluded proj = false) :
    batchTs (b.map (projRow proj)) = none := by
  rw [batchTs, List.filterMap_map]
  have : b.filterMap (rowTime ∘ projRow proj) = [] := by
    rw [List.filterMap_eq_nil_iff]
    intro r _
    exact rowTime_projRow_excluded proj r h
  rw [this]
  rfl

lemma foldlCombine_some (rest : List TsMinMax) (a : TsMinMax) :
    ∃ m, rest.foldl
        (fun acc m =>
          match acc with
          | none => some m
          | some x => some (combineTs x m)) (some a) = some m := by
  induction rest generalizing a with
  | nil => exact ⟨a, rfl⟩
  | cons r t ih => exact ih (combineTs a r)

lemma reduceTs_eq_none_iff (l : List (Option TsMinMax)) :
    reduceTs l = none ↔ l.filterMap id = [] := by
  rw [reduceTs]
  cases hl : l.filterMap id with
  | nil => simp
  | cons x rest =>
    simp only [List.foldl_cons]
    obtain ⟨m, hm⟩ := foldlCombine_some rest x
    rw [hm]
    simp

lemma foldlTsMinMax_some (ts : List Int) (a : TsMinMax) :
    ∃ m, ts.foldl
        (fun acc t =>
          match acc with
          | none => some ⟨t, t⟩
          | some m => some ⟨min m.tmin t, max m.tmax t⟩) (some a) = some m := by
  induction ts generalizing a with
  | nil => exact ⟨a, rfl⟩
  | cons t rest ih => exact ih ⟨min a.tmin t, max a.tmax t⟩

lemma batchTs_eq_none_iff (b : Batch) :
    batchTs b = none ↔ b.filterMap rowTime = [] := by
  rw [batchTs]
  cases hl : b.filterMap rowTime with
  | nil => simp
  | cons t rest =>
    simp only [List.foldl_cons]
    obtain ⟨m, hm⟩ := foldlTsMinMax_some rest ⟨t, t⟩
    rw [hm]
    simp

lemma batchTs_isSome_of_wf (b : Batch) (hne : b ≠ [])
    (hwf : ∀ r ∈ b, (rowTime r).isSome) : batchTs b ≠ none := by
  rw [Ne, batchTs_eq_none_iff]
  cases b with
  | nil => cases hne rfl
  | cons r rest =>
    intro hcon
    have := hwf r (List.mem_cons_self _ _)
    rw [Option.isSome_iff_exists] at this
    obtain ⟨t, ht⟩ := this
    rw [List.filterMap_cons, ht] at hcon
    cases hcon

lemma reduceTs_ne_none_of_mem (l : List (Option TsMinMax)) (m : TsMinMax)
    (hm : some m ∈ l) : reduceTs l ≠ none := by
  rw [Ne, reduceTs_eq_none_iff]
  intro hcon
  have : m ∈ l.filterMap id := List.mem_filterMap.mpr ⟨some m, hm, rfl⟩
  rw [hcon] at this
  cases this

lemma reduceTs_append_none (xs : List (Option TsMinMax)) :
    reduceTs (xs ++ [none]) = reduceTs xs := by
  rw [reduceTs, reduceTs, List.filterMap_append]
  simp

/-- C3.  `get_query_data(projection)` returns `none` iff the partition is
empty; a returned snapshot's row count equals `persisting.rows + buffer.rows`
for every projection, and its timestamp min/max equals the partition's
pre-projection `timestamp_stats()` iff the projection includes the `time`
column. -/
theorem C3_get_query_data_rows_and_ts :
    ∀ (p : PartitionData) (proj : OwnedProjection),
      Inv p → WfData p →
        (get_query_data p proj = none ↔ p.is_empty = true) ∧
        (∀ data, get_query_data p proj = some data →
          qRows data = p.rows) ∧
        (∀ data, get_query_data p proj = some data →
          (qTsMinMax data = timestamp_stats p ↔ timeIncluded proj = true)) := by
  intro p proj hInv hwf
  have hdata :
      get_query_data p proj =
        (if (p.persisting.map (fun e => e.2.map (projRow proj)) ++
              (bufferQueryData proj p.buffer).toList).isEmpty then none
         else some (p.persisting.map (fun e => e.2.map (projRow proj)) ++
              (bufferQueryData proj p.buffer).toList)) := rfl
  by_cases hse : p.persisting = [] ∧ p.buffer = []
  · -- the partition is structurally empty: the query returns none
    have hq : get_query_data p proj = none := by
      rw [hdata, hse.1, hse.2]
      rfl
    refine ⟨?_, ?_, ?_⟩
    · rw [hq]
      simp only [true_iff]
      rw [hInv]
      exact (structEmpty_iff p).mpr hse
    · intro data hd; rw [hq] at hd; cases hd
    · intro data hd; rw [hq] at hd; cases hd
  · -- the partition holds data: the query returns a snapshot
    have hnonempty :
        (p.persisting.map (fun e => e.2.map (projRow proj)) ++
          (bufferQueryData proj p.buffer).toList).isEmpty = false := by
      rcases not_and_or.mp hse with h3 | h3
      · have : p.persisting.map (fun e => e.2.map (projRow proj)) ≠ [] := by
          simpa using h3
        simp [List.isEmpty_iff, this]
      · have : bufferQueryData proj p.buffer = some (p.buffer.map (projRow proj)) := by
          rw [bufferQueryData, if_neg]
          simpa [List.isEmpty_iff] using h3
        simp [List.isEmpty_iff, this]
    have hq : get_query_data p proj =
        some (p.persisting.map (fun e => e.2.map (projRow proj)) ++
          (bufferQueryData proj p.buffer).toList) := by
      rw [hdata, hnonempty]
      rfl
    have hflag : p.is_empty = false := by
      rw [hInv, StructEmpty]
      rcases not_and_or.mp hse with h3 | h3 <;> simp [List.isEmpty_iff, h3]
    refine ⟨?_, ?_, ?_⟩
    · rw [hq, hflag]
      simp
    · intro data hd
      rw [hq, Option.some_inj] at hd
      subst hd
      rw [qRows, PartitionData.rows, List.map_append, List.sum_append]
      congr 1
      · rw [plRows, List.map_map]
        congr 1
        exact List.map_congr_left (fun e _ => by simp)
      · by_cases hb : p.buffer = []
        · rw [bufferQueryData, if_pos (by simp [hb, List.isEmpty_iff])]
          simp [hb]
        · rw [bufferQueryData, if_neg (by simp [List.isEmpty_iff, hb])]
          simp
    · intro data hd
      rw [hq, Option.some_inj] at hd
      subst hd
      cases hinc : timeIncluded proj with
      | true =>
        refine iff_of_true ?_ rfl
        rw [qTsMinMax, timestamp_stats, List.map_append, List.map_map]
        have hpmap :
            p.persisting.map (batchTs ∘ fun e => e.2.map (projRow proj)) =
              p.persisting.map (fun e => batchTs e.2) :=
          List.map_congr_left
            (fun e _ => by simpa using batchTs_proj_included proj e.2 hinc)
        rw [hpmap]
        by_cases hb : p.buffer = []
        · rw [bufferQueryData, if_pos (by simp [hb, List.isEmpty_iff])]
          rw [show batchTs p.buffer = none from by rw [hb]; rfl,
            reduceTs_append_none]
          simp
        · rw [bufferQueryData, if_neg (by simp [List.isEmpty_iff, hb])]
          simp only [Option.toList_some, List.map_cons, List.map_nil]
          rw [batchTs_proj_included proj p.buffer hinc]
      | false =>
        refine iff_of_false ?_ (by simp)
        -- under a projection without the time column the snapshot has no
        -- timestamp summary, while the partition itself has one
        have hqts :
            qTsMinMax (p.persisting.map (fun e => e.2.map (projRow proj)) ++
              (bufferQueryData proj p.buffer).toList) = none := by
          rw [qTsMinMax, reduceTs_eq_none_iff, List.filterMap_eq_nil_iff]
          intro o ho
          rw [List.mem_map] at ho
          obtain ⟨b, hb, rfl⟩ := ho
          rw [List.mem_append] at hb
          rcases hb with hb | hb
          · rw [List.mem_map] at hb
            obtain ⟨e, _, rfl⟩ := hb
            exact batchTs_proj_excluded proj e.2 hinc
          · by_cases hbe : p.buffer = []
            · rw [bufferQueryData, if_pos (by simp [hbe, List.isEmpty_iff])] at hb
              cases hb
            · rw [bufferQueryData, if_neg (by simp [List.isEmpty_iff, hbe])] at hb
              rw [Option.toList_some, List.mem_singleton] at hb
              subst hb
              exact batchTs_proj_excluded proj p.buffer hinc
        have hpts : timestamp_stats p ≠ none := by
          rw [timestamp_stats]
          rcases not_and_or.mp hse with h3 | h3
          · obtain ⟨e, he⟩ : ∃ e, e ∈ p.persisting := by
              cases hp : p.persisting with
              | nil => exact absurd hp h3
              | cons a t => exact ⟨a, List.mem_cons_self _ _⟩
            obtain ⟨hene, herows⟩ := hwf.2 e he
            have hbts := batchTs_isSome_of_wf e.2 hene herows
            rw [Option.ne_none_iff_exists] at hbts
            obtain ⟨m, hm⟩ := hbts
            refine reduceTs_ne_none_of_mem _ m ?_
            rw [List.mem_append, List.mem_map]
            exact Or.inl ⟨e, he, hm.symm⟩
          · have hbts := batchTs_isSome_of_wf p.buffer h3 hwf.1
            rw [Option.ne_none_iff_exists] at hbts
            obtain ⟨m, hm⟩ := hbts
            refine reduceTs_ne_none_of_mem _ m ?_
            rw [List.mem_append]
            exact Or.inr (by rw [← hm]; exact List.mem_singleton.mpr rfl)
        intro hcon
        rw [hqts] at hcon
        exact hpts hcon.symm

/-- Witness for C3: a partition holding one persisting snapshot and one
buffered row, queried under a projection that drops the time column. -/
theorem C3_get_query_data_rows_and_ts_witness :
    (get_query_data
        { is_empty := false, buffer := [mkRow 20 2],
          persisting := [(1, [mkRow 10 1])],
          started_persistence_count := 1, completed_persistence_count := 0,
          counter := 1, counterMax := 5 } (some ["x"]) = none ↔
      ({ is_empty := false, buffer := [mkRow 20 2],
         persisting := [(1, [mkRow 10 1])],
         started_persistence_count := 1, completed_persistence_count := 0,
         counter := 1, counterMax := 5 } : PartitionData).is_empty = true) ∧
    (∀ data, get_query_data
        { is_empty := false, buffer := [mkRow 20 2],
          persisting := [(1, [mkRow 10 1])],
          started_persistence_count := 1, completed_persistence_count := 0,
          counter := 1, counterMax := 5 } (some ["x"]) = some data →
      qRows data = PartitionData.rows
        { is_empty := false, buffer := [mkRow 20 2],
          persisting := [(1, [mkRow 10 1])],
          started_persistence_count := 1, completed_persistence_count := 0,
          counter := 1, counterMax := 5 }) ∧
    (∀ data, get_query_data
        { is_empty := false, buffer := [mkRow 20 2],
          persisting := [(1, [mkRow 10 1])],
          started_persistence_count := 1, completed_persistence_count := 0,
          counter := 1, counterMax := 5 } (some ["x"]) = some data →
      (qTsMinMax data = timestamp_stats
          { is_empty := false, buffer := [mkRow 20 2],
            persisting := [(1, [mkRow 10 1])],
            started_persistence_count := 1, completed_persistence_count := 0,
            counter := 1, counterMax := 5 } ↔ timeIncluded (some ["x"]) = true)) :=
  C3_get_query_data_rows_and_ts
    { is_empty := false, buffer := [mkRow 20 2],
      persisting := [(1, [mkRow 10 1])],
      started_persistence_count := 1, completed_persistence_count := 0,
      counter := 1, counterMax := 5 } (some ["x"]) (by decide)
    (by
      constructor
      · intro r hr
        rw [List.mem_singleton] at hr
        subst hr
        decide
      · intro e he
        rw [List.mem_singleton] at he
        subst he
        refine ⟨by decide, ?_⟩
        intro r hr
        rw [List.mem_singleton] at hr
        subst hr
        decide)

/-! ## WAL replay (ingester/src/init/wal_replay.rs) -/

/-- Embeds `wal::Error` as observed by replay: either the nested
`UnableToReadNextOps { UnableToReadData { io } }` shape with
`io.kind() == UnexpectedEof` that the truncated-tail handling matches on, or
any other error value. -/
inductive WalError
  | unexpectedEof
  | otherErr
deriving DecidableEq

/-- A `SequencedWalOp` together with the outcome of decoding
(`decode_database_batch`) and of applying it to the DML sink.  `tables` is
the decoded per-table sequence-number assignment (empty iff the decoded
database batch holds no table data). -/
structure WalOp where
  tables : List (Nat × Nat)
  decodeOk : Bool
  applyOk : Bool
deriving DecidableEq

instance instDecidableEqExcept {ε α : Type} [DecidableEq ε] [DecidableEq α] :
    DecidableEq (Except ε α) := fun x y =>
  match x, y with
  | .ok a, .ok b =>
    if h : a = b then .isTrue (by rw [h])
    else .isFalse (fun hc => h (Except.ok.inj hc))
  | .error a, .error b =>
    if h : a = b then .isTrue (by rw [h])
    else .isFalse (fun hc => h (Except.error.inj hc))
  | .ok _, .error _ => .isFalse (fun hc => Except.noConfusion hc)
  | .error _, .ok _ => .isFalse (fun hc => Except.noConfusion hc)

/-- A closed WAL segment as seen by `replay`: an id, the result of opening a
reader for it, the batches its reader yields, and whether deleting it
succeeds. -/
structure Segment where
  segId : Nat
  openErr : Option WalError
  batches : List (Except WalError (List WalOp))
  deleteOk : Bool
deriving DecidableEq

/-- Embeds `WalReplayError`: only the `ReadEntry` variant carries the
highest-observed sequence number. -/
inductive WalReplayError
  | openSegment (e : WalError)
  | readEntry (e : WalError) (maxSeq : Option Nat)
  | mapToDml
  | applyErr
deriving DecidableEq

/-- The sequence number attached to a replay error, if the variant carries
one. -/
def attachedSeq : WalReplayError → Option (Option Nat)
  | .readEntry _ s => some s
  | _ => none

/-- Embeds `Option::max` over sequence numbers (`None` is smallest). -/
def omax : Option Nat → Option Nat → Option Nat
  | none, b => b
  | some a, none => some a
  | some a, some b => some (max a b)

/-- Per-file replay state: the running `max_sequence`, the two op metric
counters, and the trace of ops applied to the sink. -/
structure FileSt where
  maxSeq : Option Nat
  opsOk : Nat
  opsSkipped : Nat
  applied : List WalOp
deriving DecidableEq

def initFileSt : FileSt :=
  ⟨none, 0, 0, []⟩

/-- Folding one op's per-table sequence numbers into `max_sequence`, as done
while reconstructing the `WriteOperation`. -/
def opSeqMax (st : Option Nat) (op : WalOp) : Option Nat :=
  op.tables.foldl (fun acc t => omax acc (some t.2)) st

/-- One op of `replay_file`: decode, skip ops with no table data, fold the
sequence numbers, then apply to the sink. -/
def stepOp (st : FileSt) (op : WalOp) : Except (WalReplayError × FileSt) FileSt :=
  if op.decodeOk then
    if op.tables.isEmpty then .ok { st with opsSkipped := st.opsSkipped + 1 }
    else
      if op.applyOk then
        .ok { st with maxSeq := opSeqMax st.maxSeq op,
                      opsOk := st.opsOk + 1,
                      applied := st.applied ++ [op] }
      else .error (.applyErr, { st with maxSeq := opSeqMax st.maxSeq op })
  else .error (.mapToDml, st)

/-- All ops of one batch, in order, stopping at the first failure. -/
def stepOps (st : FileSt) : List WalOp → Except (WalReplayError × FileSt) FileSt
  | [] => .ok st
  | op :: ops =>
    match stepOp st op with
    | .ok st' => stepOps st' ops
    | .error e => .error e

/-- The batch loop of `replay_file`: a batch read error becomes
`ReadEntry(e, max_sequence)` with the sequence observed so far. -/
def replayFileAux (st : FileSt) :
    List (Except WalError (List WalOp)) → Except (WalReplayError × FileSt) FileSt
  | [] => .ok st
  | .error e :: _ => .error (.readEntry e st.maxSeq, st)
  | .ok ops :: bs =>
    match stepOps st ops with
    | .ok st' => replayFileAux st' bs
    | .error e => .error e

/-- Embeds `replay_file`: replay all batches of one segment, returning either the
final state (whose `maxSeq` is the returned sequence number) or the failure
with the state at the point of failure (its counters record the metric
increments made before failing). -/
def replayFile (bs : List (Except WalError (List WalOp))) :
    Except (WalReplayError × FileSt) FileSt :=
  replayFileAux initFileSt bs

/-- Whole-replay state: the replay metrics, the persist-and-delete effects,
and the running `max_sequence`. -/
structure ReplaySt where
  filesStarted : Nat
  finishedSuccess : Nat
  finishedTruncated : Nat
  opsOk : Nat
  opsSkipped : Nat
  persistCalls : Nat
  deleted : List Nat
  maxSeq : Option Nat
deriving DecidableEq

def initReplaySt : ReplaySt :=
  ⟨0, 0, 0, 0, 0, 0, [], none⟩

/-- The result of `replay`: success with the returned sequence number, a
returned `WalReplayError`, or a panic (the `.expect` on segment deletion
after persisting). -/
inductive ReplayOutcome
  | ok (maxSeq : Option Nat) (st : ReplaySt)
  | fail (e : WalReplayError) (st : ReplaySt)
  | panicked (st : ReplaySt)
deriving DecidableEq

def ReplayOutcome.isPanicked : ReplayOutcome → Bool
  | .panicked _ => true
  | _ => false

/-- One iteration of `replay`'s segment loop (`k` is the 1-based file
number, `n` the total file count): open the reader, replay the file, then
dispatch on the result exactly as the `match replay_result` in `replay`
does.  `.ok st'` means the loop continues with state `st'`; `.error out`
means `replay` terminates with `out`. -/
def replaySegStep (n k : Nat) (st : ReplaySt) (seg : Segment) :
    Except ReplayOutcome ReplaySt :=
  let st1 := { st with filesStarted := st.filesStarted + 1 }
  match seg.openErr with
  | some e => .error (.fail (.openSegment e) st1)
  | none =>
    match replayFile seg.batches with
    | .ok fst =>
      let st2 := { st1 with
          opsOk := st1.opsOk + fst.opsOk,
          opsSkipped := st1.opsSkipped + fst.opsSkipped,
          finishedSuccess := st1.finishedSuccess + 1 }
      match fst.maxSeq with
      | some s =>
        -- observed ops: persist all partitions, then delete the segment
        -- (a delete failure panics via `.expect`)
        let st3 := { st2 with
            maxSeq := omax st2.maxSeq (some s),
            persistCalls := st2.persistCalls + 1 }
        if seg.deleteOk then .ok { st3 with deleted := st3.deleted ++ [seg.segId] }
        else .error (.panicked st3)
      | none =>
        -- empty segment: delete it, tolerating a failure, and continue
        .ok (if seg.deleteOk then { st2 with deleted := st2.deleted ++ [seg.segId] }
             else st2)
    | .error (e, fst) =>
      let st2 := { st1 with
          opsOk := st1.opsOk + fst.opsOk,
          opsSkipped := st1.opsSkipped + fst.opsSkipped }
      match e with
      | .readEntry .unexpectedEof seq =>
        if k = n then
          -- truncated tail of the final segment: keep the sequence, record
          -- the metric, then persist and delete as for an observed segment
          let st3 := { st2 with
              maxSeq := omax st2.maxSeq seq,
              finishedTruncated := st2.finishedTruncated + 1,
              persistCalls := st2.persistCalls + 1 }
          if seg.deleteOk then .ok { st3 with deleted := st3.deleted ++ [seg.segId] }
          else .error (.panicked st3)
        else .error (.fail (.readEntry .unexpectedEof seq) st2)
      | e' => .error (.fail e' st2)

/-- The segment loop of `replay`. -/
def replayGo (n : Nat) : Nat → ReplaySt → List Segment → ReplayOutcome
  | _, st, [] => .ok st.maxSeq st
  | k, st, seg :: rest =>
    match replaySegStep n k st seg with
    | .error out => out
    | .ok st' => replayGo n (k + 1) st' rest

/-- Embeds `replay`: an empty WAL short-circuits to `Ok(None)`; otherwise the
segments are replayed in age order. -/
def replay (files : List Segment) : ReplayOutcome :=
  if files.isEmpty then .ok none initReplaySt
  else replayGo files.length 1 initReplaySt files

/-- A segment whose reader opens, replays without error, and deletes
successfully. -/
def CleanSeg (s : Segment) : Prop :=
  s.openErr = none ∧ s.deleteOk = true ∧ (replayFile s.batches).isOk = true

instance instDecidableCleanSeg (s : Segment) : Decidable (CleanSeg s) :=
  inferInstanceAs (Decidable (_ ∧ _ ∧ _))

/-- The state transformation of one cleanly-replayed segment. -/
def advanceClean (st : ReplaySt) (s : Segment) : ReplaySt :=
  match replayFile s.batches with
  | .error _ => st
  | .ok fst =>
    let st2 := { st with
        filesStarted := st.filesStarted + 1,
        opsOk := st.opsOk + fst.opsOk,
        opsSkipped := st.opsSkipped + fst.opsSkipped,
        finishedSuccess := st.finishedSuccess + 1 }
    match fst.maxSeq with
    | some s' => { st2 with maxSeq := omax st2.maxSeq (some s'),
                            persistCalls := st2.persistCalls + 1,
                            deleted := st2.deleted ++ [s.segId] }
    | none => { st2 with deleted := st2.deleted ++ [s.segId] }

lemma replaySegStep_clean (n k : Nat) (st : ReplaySt) (s : Segment)
    (hc : CleanSeg s) :
    replaySegStep n k st s = .ok (advanceClean st s) := by
  obtain ⟨ho, hd, hok⟩ := hc
  rw [replaySegStep, advanceClean, ho]
  cases hrf : replayFile s.batches with
  | error e =>
    rw [hrf] at hok
    exact nomatch (hok : (false : Bool) = true)
  | ok fst =>
    cases hms : fst.maxSeq with
    | some s' => simp [hd, hms]
    | none => simp [hd, hms]

lemma replayGo_clean_front (pre : List Segment) (n k : Nat) (st : ReplaySt)
    (rest : List Segment) (hc : ∀ s ∈ pre, CleanSeg s) :
    replayGo n k st (pre ++ rest) =
      replayGo n (k + pre.length) (pre.foldl advanceClean st) rest := by
  induction pre generalizing k st with
  | nil => simp
  | cons s t ih =>
    have harith : k + (t.length + 1) = (k + 1) + t.length := by omega
    rw [List.cons_append, replayGo,
      replaySegStep_clean n k st s (hc s (List.mem_cons_self _ _))]
    show replayGo n (k + 1) (advanceClean st s) (t ++ rest) = _
    rw [List.foldl_cons, List.length_cons, harith]
    exact ih (k + 1) (advanceClean st s) (fun x hx => hc x (List.mem_cons_of_mem _ hx))

lemma replaySegStep_truncated (n k : Nat) (st : ReplaySt) (seg : Segment)
    (seq : Option Nat) (fst : FileSt)
    (ho : seg.openErr = none)
    (hrf : replayFile seg.batches = .error (.readEntry .unexpectedEof seq, fst))
    (hk : k = n) (hd : seg.deleteOk = true) :
    replaySegStep n k st seg =
      .ok { st with
          filesStarted := st.filesStarted + 1,
          opsOk := st.opsOk + fst.opsOk,
          opsSkipped := st.opsSkipped + fst.opsSkipped,
          finishedTruncated := st.finishedTruncated + 1,
          persistCalls := st.persistCalls + 1,
          maxSeq := omax st.maxSeq seq,
          deleted := st.deleted ++ [seg.segId] } := by
  rw [replaySegStep, ho, hrf]
  simp [hk, hd]

lemma replaySegStep_earlyEof (n k : Nat) (st : ReplaySt) (seg : Segment)
    (seq : Option Nat) (fst : FileSt)
    (ho : seg.openErr = none)
    (hrf : replayFile seg.batches = .error (.readEntry .unexpectedEof seq, fst))
    (hk : ¬ k = n) :
    replaySegStep n k st seg =
      .error (.fail (.readEntry .unexpectedEof seq)
        { st with
            filesStarted := st.filesStarted + 1,
            opsOk := st.opsOk + fst.opsOk,
            opsSkipped := st.opsSkipped + fst.opsSkipped }) := by
  rw [replaySegStep, ho, hrf]
  simp [hk]

lemma replaySegStep_openErr (n k : Nat) (st : ReplaySt) (seg : Segment)
    (w : WalError) (ho : seg.openErr = some w) :
    replaySegStep n k st seg =
      .error (.fail (.openSegment w)
        { st with filesStarted := st.filesStarted + 1 }) := by
  rw [replaySegStep, ho]

lemma replaySegStep_err (n k : Nat) (st : ReplaySt) (seg : Segment)
    (e : WalReplayError) (fst : FileSt)
    (ho : seg.openErr = none)
    (hrf : replayFile seg.batches = .error (e, fst))
    (hne : ∀ s', ¬ e = .readEntry .unexpectedEof s') :
    replaySegStep n k st seg =
      .error (.fail e
        { st with
            filesStarted := st.filesStarted + 1,
            opsOk := st.opsOk + fst.opsOk,
            opsSkipped := st.opsSkipped + fst.opsSkipped }) := by
  rw [replaySegStep, ho, hrf]
  cases e with
  | openSegment w => rfl
  | mapToDml => rfl
  | applyErr => rfl
  | readEntry we s' =>
    cases we with
    | unexpectedEof => exact absurd rfl (hne s')
    | otherErr => rfl

lemma replaySegStep_emptyDeleteFail (n k : Nat) (st : ReplaySt) (seg : Segment)
    (fst : FileSt)
    (ho : seg.openErr = none)
    (hrf : replayFile seg.batches = .ok fst)
    (hms : fst.maxSeq = none)
    (hd : seg.deleteOk = false) :
    replaySegStep n k st seg =
      .ok { st with
          filesStarted := st.filesStarted + 1,
          opsOk := st.opsOk + fst.opsOk,
          opsSkipped := st.opsSkipped + fst.opsSkipped,
          finishedSuccess := st.finishedSuccess + 1 } := by
  rw [replaySegStep, ho, hrf]
  simp [hms, hd]

lemma replaySegStep_persistDeleteFail (n k : Nat) (st : ReplaySt) (seg : Segment)
    (fst : FileSt) (s : Nat)
    (ho : seg.openErr = none)
    (hrf : replayFile seg.batches = .ok fst)
    (hms : fst.maxSeq = some s)
    (hd : seg.deleteOk = false) :
    replaySegStep n k st seg =
      .error (.panicked
        { st with
            filesStarted := st.filesStarted + 1,
            opsOk := st.opsOk + fst.opsOk,
            opsSkipped := st.opsSkipped + fst.opsSkipped,
            finishedSuccess := st.finishedSuccess + 1,
            maxSeq := omax st.maxSeq (some s),
            persistCalls := st.persistCalls + 1 }) := by
  rw [replaySegStep, ho, hrf]
  simp [hms, hd]

/-- C4.  During WAL replay, an unexpected end-of-file read error on the
last segment (and only the last segment) is treated as a truncated final
write: the truncated metric is incremented by one, the `max_sequence`
observed so far is kept, reading of that segment stops, and replay still
persists the replayed partitions and deletes the segment before returning
success; the same error on any earlier segment fails the replay. -/
theorem C4_truncated_tail_last_segment_only :
    (∀ (pre : List Segment) (lastSeg : Segment) (seq : Option Nat) (fst : FileSt),
      (∀ s ∈ pre, CleanSeg s) →
      lastSeg.openErr = none →
      lastSeg.deleteOk = true →
      replayFile lastSeg.batches = .error (.readEntry .unexpectedEof seq, fst) →
      replay (pre ++ [lastSeg]) =
        .ok (omax (pre.foldl advanceClean initReplaySt).maxSeq seq)
          { pre.foldl advanceClean initReplaySt with
              filesStarted := (pre.foldl advanceClean initReplaySt).filesStarted + 1,
              opsOk := (pre.foldl advanceClean initReplaySt).opsOk + fst.opsOk,
              opsSkipped := (pre.foldl advanceClean initReplaySt).opsSkipped + fst.opsSkipped,
              finishedTruncated :=
                (pre.foldl advanceClean initReplaySt).finishedTruncated + 1,
              persistCalls := (pre.foldl advanceClean initReplaySt).persistCalls + 1,
              maxSeq := omax (pre.foldl advanceClean initReplaySt).maxSeq seq,
              deleted := (pre.foldl advanceClean initReplaySt).deleted ++ [lastSeg.segId] }) ∧
    (∀ (pre : List Segment) (seg : Segment) (post : List Segment)
        (seq : Option Nat) (fst : FileSt),
      post ≠ [] →
      (∀ s ∈ pre, CleanSeg s) →
      seg.openErr = none →
      replayFile seg.batches = .error (.readEntry .unexpectedEof seq, fst) →
      replay (pre ++ seg :: post) =
        .fail (.readEntry .unexpectedEof seq)
          { pre.foldl advanceClean initReplaySt with
              filesStarted := (pre.foldl advanceClean initReplaySt).filesStarted + 1,
              opsOk := (pre.foldl advanceClean initReplaySt).opsOk + fst.opsOk,
              opsSkipped :=
                (pre.foldl advanceClean initReplaySt).opsSkipped + fst.opsSkipped }) := by
  constructor
  · intro pre lastSeg seq fst hcpre ho hd hrf
    rw [replay, if_neg (by simp)]
    rw [replayGo_clean_front pre _ 1 initReplaySt [lastSeg] hcpre]
    rw [replayGo, replaySegStep_truncated _ _ _ _ _ _ ho hrf
      (by simp only [List.length_append, List.length_cons, List.length_nil]; omega) hd]
    show replayGo _ _ _ [] = _
    rw [replayGo]
  · intro pre seg post seq fst hpost hcpre ho hrf
    rw [replay, if_neg (by simp)]
    rw [replayGo_clean_front pre _ 1 initReplaySt (seg :: post) hcpre]
    rw [replayGo, replaySegStep_earlyEof _ _ _ _ _ _ ho hrf
      (by
        simp only [List.length_append, List.length_cons]
        have := List.length_pos.mpr hpost
        omega)]

/-- Witness for C4: the spec's literal scenario — three segments, the last
yielding one good op (sequence 3) and then an unexpected EOF.  Replay
succeeds with `max_sequence = 3`, deletes all three segments, and counts one
truncated file alongside two successful ones. -/
theorem C4_truncated_tail_last_segment_only_witness :
    replay
        [⟨1, none, [.ok [⟨[(1, 1)], true, true⟩]], true⟩,
         ⟨2, none, [.ok [⟨[(1, 2)], true, true⟩]], true⟩,
         ⟨3, none, [.ok [⟨[(1, 3)], true, true⟩], .error .unexpectedEof], true⟩] =
      .ok (some 3) ⟨3, 2, 1, 3, 0, 3, [1, 2, 3], some 3⟩ := by
  have h := C4_truncated_tail_last_segment_only.1
    [⟨1, none, [.ok [⟨[(1, 1)], true, true⟩]], true⟩,
     ⟨2, none, [.ok [⟨[(1, 2)], true, true⟩]], true⟩]
    ⟨3, none, [.ok [⟨[(1, 3)], true, true⟩], .error .unexpectedEof], true⟩
    (some 3) ⟨some 3, 1, 0, [⟨[(1, 3)], true, true⟩]⟩
    (by decide) rfl rfl (by decide)
  exact h.trans (by decide)

/-- C8 (amended).  A failure to delete an *empty* WAL segment during replay
is logged and never fails or aborts the replay, which continues with the
remaining segments; but a failure to delete a segment whose replayed data
was just persisted aborts the replay with a panic. -/
theorem C8_segment_delete_failure :
    (∀ (pre : List Segment) (seg : Segment) (rest : List Segment) (fst : FileSt),
      (∀ s ∈ pre, CleanSeg s) →
      seg.openErr = none →
      replayFile seg.batches = .ok fst →
      fst.maxSeq = none →
      seg.deleteOk = false →
      replay (pre ++ seg :: rest) =
        replayGo (pre ++ seg :: rest).length (pre.length + 2)
          { pre.foldl advanceClean initReplaySt with
              filesStarted := (pre.foldl advanceClean initReplaySt).filesStarted + 1,
              opsOk := (pre.foldl advanceClean initReplaySt).opsOk + fst.opsOk,
              opsSkipped := (pre.foldl advanceClean initReplaySt).opsSkipped + fst.opsSkipped,
              finishedSuccess :=
                (pre.foldl advanceClean initReplaySt).finishedSuccess + 1 } rest) ∧
    (∀ (pre : List Segment) (seg : Segment) (rest : List Segment)
        (fst : FileSt) (s : Nat),
      (∀ s' ∈ pre, CleanSeg s') →
      seg.openErr = none →
      replayFile seg.batches = .ok fst →
      fst.maxSeq = some s →
      seg.deleteOk = false →
      replay (pre ++ seg :: rest) =
        .panicked
          { pre.foldl advanceClean initReplaySt with
              filesStarted := (pre.foldl advanceClean initReplaySt).filesStarted + 1,
              opsOk := (pre.foldl advanceClean initReplaySt).opsOk + fst.opsOk,
              opsSkipped := (pre.foldl advanceClean initReplaySt).opsSkipped + fst.opsSkipped,
              finishedSuccess :=
                (pre.foldl advanceClean initReplaySt).finishedSuccess + 1,
              maxSeq := omax (pre.foldl advanceClean initReplaySt).maxSeq (some s),
              persistCalls :=
                (pre.foldl advanceClean initReplaySt).persistCalls + 1 }) := by
  constructor
  · intro pre seg rest fst hcpre ho hrf hms hd
    rw [replay, if_neg (by simp)]
    rw [replayGo_clean_front pre _ 1 initReplaySt (seg :: rest) hcpre]
    rw [replayGo, replaySegStep_emptyDeleteFail _ _ _ _ _ ho hrf hms hd]
    show replayGo _ (1 + pre.length + 1) _ rest = _
    have : 1 + pre.length + 1 = pre.length + 2 := by omega
    rw [this]
  · intro pre seg rest fst s hcpre ho hrf hms hd
    rw [replay, if_neg (by simp)]
    rw [replayGo_clean_front pre _ 1 initReplaySt (seg :: rest) hcpre]
    rw [replayGo, replaySegStep_persistDeleteFail _ _ _ _ _ _ ho hrf hms hd]

/-- Counterexample for C8 as stated: one segment holding a good op whose
delete fails.  Replay does not continue and does not return the
`max_sequence` result — it aborts (the `.expect("failed to drop wal
segment")` panics). -/
theorem C8_segment_delete_failure_counterexample :
    (replay [⟨1, none, [.ok [⟨[(1, 7)], true, true⟩]], false⟩]).isPanicked = true := by
  decide

/-- Witness for C8 (amended): an empty segment with a failing delete is
tolerated and replay of the remaining segment still succeeds, while a
non-empty segment with a failing delete panics. -/
theorem C8_segment_delete_failure_witness :
    replay [⟨1, none, [], false⟩, ⟨2, none, [.ok [⟨[(1, 5)], true, true⟩]], true⟩] =
      replayGo 2 2 ⟨1, 1, 0, 0, 0, 0, [], none⟩
        [⟨2, none, [.ok [⟨[(1, 5)], true, true⟩]], true⟩] ∧
    replay [⟨1, none, [.ok [⟨[(1, 7)], true, true⟩]], false⟩] =
      .panicked ⟨1, 1, 0, 1, 0, 1, [], some 7⟩ := by
  constructor
  · have h := C8_segment_delete_failure.1 [] ⟨1, none, [], false⟩
      [⟨2, none, [.ok [⟨[(1, 5)], true, true⟩]], true⟩] initFileSt
      (by intro s hs; cases hs) rfl rfl rfl rfl
    exact h.trans (by decide)
  · have h := C8_segment_delete_failure.2 [] ⟨1, none, [.ok [⟨[(1, 7)], true, true⟩]], false⟩
      [] ⟨some 7, 1, 0, [⟨[(1, 7)], true, true⟩]⟩ 7
      (by intro s hs; cases hs) rfl (by decide) rfl rfl
    exact h.trans (by decide)

/-- The highest per-table sequence number across a trace of applied ops. -/
def listSeqMax (ops : List WalOp) : Option Nat :=
  ops.foldl opSeqMax none

/-- The per-file bookkeeping invariant: the running `max_sequence` is the
maximum across the trace of successfully applied ops. -/
def RelSt (st : FileSt) : Prop :=
  st.maxSeq = listSeqMax st.applied

lemma listSeqMax_append (l : List WalOp) (op : WalOp) :
    listSeqMax (l ++ [op]) = opSeqMax (listSeqMax l) op := by
  rw [listSeqMax, listSeqMax, List.foldl_append]
  rfl

lemma stepOp_ok_rel (st : FileSt) (op : WalOp) (st' : FileSt)
    (h : stepOp st op = .ok st') (hrel : RelSt st) : RelSt st' := by
  rw [stepOp] at h
  by_cases hdec : op.decodeOk = true
  · rw [if_pos hdec] at h
    by_cases hemp : op.tables.isEmpty = true
    · rw [if_pos hemp] at h
      cases h
      exact hrel
    · rw [if_neg hemp] at h
      by_cases happ : op.applyOk = true
      · rw [if_pos happ] at h
        cases h
        rw [RelSt] at hrel ⊢
        show opSeqMax st.maxSeq op = listSeqMax (st.applied ++ [op])
        rw [listSeqMax_append, hrel]
      · rw [if_neg happ] at h
        cases h
  · rw [if_neg hdec] at h
    cases h

lemma stepOp_err_kind (st : FileSt) (op : WalOp) (e : WalReplayError)
    (fst : FileSt) (h : stepOp st op = .error (e, fst)) :
    e = .mapToDml ∨ e = .applyErr := by
  rw [stepOp] at h
  by_cases hdec : op.decodeOk = true
  · rw [if_pos hdec] at h
    by_cases hemp : op.tables.isEmpty = true
    · rw [if_pos hemp] at h; cases h
    · rw [if_neg hemp] at h
      by_cases happ : op.applyOk = true
      · rw [if_pos happ] at h; cases h
      · rw [if_neg happ] at h
        injection h with h1
        rw [Prod.mk.injEq] at h1
        exact Or.inr h1.1.symm
  · rw [if_neg hdec] at h
    injection h with h1
    rw [Prod.mk.injEq] at h1
    exact Or.inl h1.1.symm

lemma stepOps_ok_rel (ops : List WalOp) :
    ∀ (st st' : FileSt), stepOps st ops = .ok st' → RelSt st → RelSt st' := by
  induction ops with
  | nil =>
    intro st st' h hrel
    rw [stepOps] at h
    cases h
    exact hrel
  | cons op rest ih =>
    intro st st' h hrel
    rw [stepOps] at h
    cases hso : stepOp st op with
    | ok st1 =>
      rw [hso] at h
      exact ih st1 st' h (stepOp_ok_rel st op st1 hso hrel)
    | error e =>
      rw [hso] at h
      cases h

lemma stepOps_err_kind (ops : List WalOp) :
    ∀ (st : FileSt) (e : WalReplayError) (fst : FileSt),
      stepOps st ops = .error (e, fst) → e = .mapToDml ∨ e = .applyErr := by
  induction ops with
  | nil =>
    intro st e fst h
    rw [stepOps] at h
    cases h
  | cons op rest ih =>
    intro st e fst h
    rw [stepOps] at h
    cases hso : stepOp st op with
    | ok st1 =>
      rw [hso] at h
      exact ih st1 e fst h
    | error ep =>
      rw [hso] at h
      injection h with h1
      obtain ⟨e', fst'⟩ := ep
      rw [h1] at hso
      exact stepOp_err_kind st op e fst hso

lemma replayFileAux_readEntry (bs : List (Except WalError (List WalOp))) :
    ∀ (st : FileSt) (e : WalError) (s : Option Nat) (fst : FileSt),
      replayFileAux st bs = .error (.readEntry e s, fst) → RelSt st →
        s = listSeqMax fst.applied := by
  induction bs with
  | nil =>
    intro st e s fst h _
    rw [replayFileAux] at h
    cases h
  | cons b rest ih =>
    intro st e s fst h hrel
    cases b with
    | error e' =>
      rw [replayFileAux] at h
      injection h with h1
      rw [Prod.mk.injEq] at h1
      obtain ⟨h1e, h1f⟩ := h1
      injection h1e with _ h1s
      subst h1f
      rw [← h1s]
      exact hrel
    | ok ops =>
      rw [replayFileAux] at h
      cases hso : stepOps st ops with
      | ok st1 =>
        rw [hso] at h
        exact ih st1 e s fst h (stepOps_ok_rel ops st st1 hso hrel)
      | error ep =>
        rw [hso] at h
        injection h with h1
        obtain ⟨e', fst'⟩ := ep
        rw [Prod.mk.injEq] at h1
        obtain ⟨h1e, _⟩ := h1
        rcases stepOps_err_kind ops st e' fst' hso with h2 | h2 <;>
          (rw [h2] at h1e; cases h1e)

/-- C9 (amended).  Every WAL replay failure other than the tolerated
truncated tail of the final segment fails the whole replay.  The `ReadEntry`
error carries the highest sequence number of the operations successfully
applied from the failing segment (or `none`); segment-open, decode, and
apply errors carry no sequence number at all. -/
theorem C9_replay_failure_error_payloads :
    (∀ (bs : List (Except WalError (List WalOp))) (e : WalError) (s : Option Nat)
        (fst : FileSt),
      replayFile bs = .error (.readEntry e s, fst) →
        s = listSeqMax fst.applied) ∧
    (∀ (pre : List Segment) (seg : Segment) (rest : List Segment)
        (e : WalReplayError) (fst : FileSt),
      (∀ s' ∈ pre, CleanSeg s') →
      seg.openErr = none →
      replayFile seg.batches = .error (e, fst) →
      (∀ s', ¬ e = .readEntry .unexpectedEof s') →
      replay (pre ++ seg :: rest) =
        .fail e
          { pre.foldl advanceClean initReplaySt with
              filesStarted := (pre.foldl advanceClean initReplaySt).filesStarted + 1,
              opsOk := (pre.foldl advanceClean initReplaySt).opsOk + fst.opsOk,
              opsSkipped :=
                (pre.foldl advanceClean initReplaySt).opsSkipped + fst.opsSkipped }) ∧
    (∀ (pre : List Segment) (seg : Segment) (rest : List Segment) (w : WalError),
      (∀ s' ∈ pre, CleanSeg s') →
      seg.openErr = some w →
      replay (pre ++ seg :: rest) =
        .fail (.openSegment w)
          { pre.foldl advanceClean initReplaySt with
              filesStarted := (pre.foldl advanceClean initReplaySt).filesStarted + 1 }) ∧
    (∀ (pre : List Segment) (seg : Segment) (post : List Segment)
        (seq : Option Nat) (fst : FileSt),
      post ≠ [] →
      (∀ s' ∈ pre, CleanSeg s') →
      seg.openErr = none →
      replayFile seg.batches = .error (.readEntry .unexpectedEof seq, fst) →
      replay (pre ++ seg :: post) =
        .fail (.readEntry .unexpectedEof seq)
          { pre.foldl advanceClean initReplaySt with
              filesStarted := (pre.foldl advanceClean initReplaySt).filesStarted + 1,
              opsOk := (pre.foldl advanceClean initReplaySt).opsOk + fst.opsOk,
              opsSkipped :=
                (pre.foldl advanceClean initReplaySt).opsSkipped + fst.opsSkipped }) ∧
    ((∀ (e : WalError) (s : Option Nat), attachedSeq (.readEntry e s) = some s) ∧
     attachedSeq .mapToDml = none ∧ attachedSeq .applyErr = none ∧
     (∀ w, attachedSeq (.openSegment w) = none)) := by
  refine ⟨?_, ?_, ?_, ?_, fun _ _ => rfl, rfl, rfl, fun _ => rfl⟩
  · intro bs e s fst h
    exact replayFileAux_readEntry bs initFileSt e s fst h rfl
  · intro pre seg rest e fst hcpre ho hrf hne
    rw [replay, if_neg (by simp)]
    rw [replayGo_clean_front pre _ 1 initReplaySt (seg :: rest) hcpre]
    rw [replayGo, replaySegStep_err _ _ _ _ _ _ ho hrf hne]
  · intro pre seg rest w hcpre ho
    rw [replay, if_neg (by simp)]
    rw [replayGo_clean_front pre _ 1 initReplaySt (seg :: rest) hcpre]
    rw [replayGo, replaySegStep_openErr _ _ _ _ _ ho]
  · intro pre seg post seq fst hpost hcpre ho hrf
    rw [replay, if_neg (by simp)]
    rw [replayGo_clean_front pre _ 1 initReplaySt (seg :: post) hcpre]
    rw [replayGo, replaySegStep_earlyEof _ _ _ _ _ _ ho hrf
      (by
        simp only [List.length_append, List.length_cons]
        have := List.length_pos.mpr hpost
        omega)]

/-- Counterexample for C9 as stated: a replay that fails applying the
second op of its only segment returns `Apply` — an error variant that
carries no sequence number — even though the op with sequence number 7 had
already been applied successfully (the success metric records it). -/
theorem C9_replay_failure_error_payloads_counterexample :
    replay [⟨1, none, [.ok [⟨[(1, 7)], true, true⟩, ⟨[(1, 9)], true, false⟩]], true⟩] =
      .fail .applyErr ⟨1, 0, 0, 1, 0, 0, [], none⟩ ∧
    attachedSeq .applyErr = none ∧
    (⟨1, 0, 0, 1, 0, 0, [], none⟩ : ReplaySt).opsOk = 1 :=
  ⟨by decide, rfl, rfl⟩

/-- Witness for C9 (amended): a read failure after one applied op carries
that op's sequence number, and the replay as a whole fails with it. -/
theorem C9_replay_failure_error_payloads_witness :
    (some 7 : Option Nat) = listSeqMax [⟨[(1, 7)], true, true⟩] ∧
    replay [⟨1, none, [.ok [⟨[(1, 7)], true, true⟩], .error .otherErr], true⟩] =
      .fail (.readEntry .otherErr (some 7)) ⟨1, 0, 0, 1, 0, 0, [], none⟩ := by
  constructor
  · exact C9_replay_failure_error_payloads.1
      [.ok [⟨[(1, 7)], true, true⟩], .error .otherErr] .otherErr (some 7)
      ⟨some 7, 1, 0, [⟨[(1, 7)], true, true⟩]⟩ (by decide)
  · have h := C9_replay_failure_error_payloads.2.1 []
      ⟨1, none, [.ok [⟨[(1, 7)], true, true⟩], .error .otherErr], true⟩ []
      (.readEntry .otherErr (some 7)) ⟨some 7, 1, 0, [⟨[(1, 7)], true, true⟩]⟩
      (by intro s hs; cases hs) rfl (by decide)
      (by intro s' hcon; injection hcon with h1 _; cases h1)
    exact h.trans (by decide)

/-! ## C6: post-classification possible-progress filter
(compactor/src/components/post_classification_partition_filter/possible_progress.rs) -/

/-- The catalog fields of a `ParquetFile` that the filter inspects. -/
structure CompactorFile where
  file_size_bytes : Int
  min_time : Int
  max_time : Int
deriving DecidableEq

/-- Modelled from the spec: `FilesForProgress` (the compactor's
file_classification module is not in these sources) — the upgrade set plus
the split-or-compact set chosen by the classifier; it is empty when both
are. -/
structure FilesForProgress where
  upgrade : List CompactorFile
  split_or_compact : List CompactorFile
deriving DecidableEq

/-- Embeds `FilesForProgress::is_empty`. -/
def progressIsEmpty (f : FilesForProgress) : Bool :=
  f.upgrade.isEmpty && f.split_or_compact.isEmpty

/-- The `OutOfMemory` message built by `PossibleProgressFilter::apply`,
naming the partition, the size limit and the single-nanosecond timestamp. -/
def oomMessage (partitionId : Int) (maxBytes : Nat) (t : Int) : String :=
  "partition " ++ toString partitionId ++
  " has overlapped files that exceed max compact size limit " ++ toString maxBytes ++
  ", and cannot be split because they cover a single ns of time " ++ toString t ++ "."

/-- Embeds `PossibleProgressFilter::apply`: with a non-empty progress set, report
progress; otherwise scan the kept files and fail with `OutOfMemory` at the
first file at least `max_parquet_bytes` large whose time range is a single
nanosecond, else report no progress. -/
def possible_progress_apply (maxBytes : Nat) (partitionId : Int)
    (progress : FilesForProgress) (keep : List CompactorFile) :
    Except String Bool :=
  if ¬ progressIsEmpty progress then .ok true
  else
    match keep.find?
        (fun f => decide ((maxBytes : Int) ≤ f.file_size_bytes ∧
                          f.min_time = f.max_time)) with
    | some f => .error (oomMessage partitionId maxBytes f.min_time)
    | none => .ok false

/-- C6 (amended).  When classification yields an empty progress set, the
filter returns an `OutOfMemory` error whose message names the partition, the
size limit and the timestamp iff some kept file is at least
`max_parquet_bytes` large (`>=`, not strictly greater) with
`min_time = max_time`; otherwise it returns no-progress (`false`) without
error; and whenever the progress set is non-empty it returns `true` without
inspecting the kept files. -/
theorem C6_possible_progress_filter :
    ∀ (maxBytes : Nat) (pid : Int) (progress : FilesForProgress)
        (keep : List CompactorFile),
      (progressIsEmpty progress = false →
        possible_progress_apply maxBytes pid progress keep = .ok true) ∧
      (progressIsEmpty progress = true →
        ((∃ f ∈ keep, (maxBytes : Int) ≤ f.file_size_bytes ∧ f.min_time = f.max_time) →
          ∃ f ∈ keep, (maxBytes : Int) ≤ f.file_size_bytes ∧ f.min_time = f.max_time ∧
            possible_progress_apply maxBytes pid progress keep =
              .error (oomMessage pid maxBytes f.min_time)) ∧
        ((∀ f ∈ keep, ¬ ((maxBytes : Int) ≤ f.file_size_bytes ∧ f.min_time = f.max_time)) →
          possible_progress_apply maxBytes pid progress keep = .ok false)) := by
  intro maxBytes pid progress keep
  constructor
  · intro hne
    rw [possible_progress_apply, if_pos (by simp [hne])]
  · intro hemp
    constructor
    · intro hex
      have hsome : (keep.find?
          (fun f => decide ((maxBytes : Int) ≤ f.file_size_bytes ∧
                            f.min_time = f.max_time))).isSome := by
        rw [List.find?_isSome]
        obtain ⟨f, hf, hp⟩ := hex
        exact ⟨f, hf, by simpa using hp⟩
      rw [Option.isSome_iff_exists] at hsome
      obtain ⟨f, hf⟩ := hsome
      have hmem := List.mem_of_find?_eq_some hf
      have hpred := List.find?_some hf
      simp only [decide_eq_true_eq] at hpred
      refine ⟨f, hmem, hpred.1, hpred.2, ?_⟩
      rw [possible_progress_apply, if_neg (by simp [hemp]), hf]
    · intro hall
      have hnone : keep.find?
          (fun f => decide ((maxBytes : Int) ≤ f.file_size_bytes ∧
                            f.min_time = f.max_time)) = none := by
        rw [List.find?_eq_none]
        intro f hf
        simpa using hall f hf
      rw [possible_progress_apply, if_neg (by simp [hemp]), hnone]

/-- Counterexample for C6 as stated: a kept file of exactly
`max_parquet_bytes` (10) bytes with `min_time = max_time` makes the filter
return `OutOfMemory` even though no kept file strictly *exceeds* the
limit. -/
theorem C6_possible_progress_filter_counterexample :
    possible_progress_apply 10 1 ⟨[], []⟩ [⟨10, 0, 0⟩] =
      .error (oomMessage 1 10 0) ∧
    ¬ (((10 : Nat) : Int) < (⟨10, 0, 0⟩ : CompactorFile).file_size_bytes) :=
  ⟨by decide, by decide⟩

/-- Witness for C6 (amended): a concrete empty progress set with one
oversize single-nanosecond kept file errors, and with no qualifying kept
file reports no progress; a non-empty progress set reports progress. -/
theorem C6_possible_progress_filter_witness :
    (∃ f ∈ [(⟨11, 5, 5⟩ : CompactorFile)],
      ((10 : Nat) : Int) ≤ f.file_size_bytes ∧ f.min_time = f.max_time ∧
        possible_progress_apply 10 1 ⟨[], []⟩ [⟨11, 5, 5⟩] =
          .error (oomMessage 1 10 f.min_time)) ∧
    possible_progress_apply 10 1 ⟨[], []⟩ [⟨11, 5, 6⟩] = .ok false ∧
    possible_progress_apply 10 1 ⟨[⟨1, 0, 0⟩], []⟩ [] = .ok true := by
  refine ⟨?_, ?_, ?_⟩
  · obtain ⟨f, hf, h1, h2, h3⟩ :=
      ((C6_possible_progress_filter 10 1 ⟨[], []⟩ [⟨11, 5, 5⟩]).2 (by decide)).1
        ⟨⟨11, 5, 5⟩, by decide, by decide⟩
    exact ⟨f, hf, h1, h2, h3⟩
  · exact ((C6_possible_progress_filter 10 1 ⟨[], []⟩ [⟨11, 5, 6⟩]).2 (by decide)).2
      (by decide)
  · exact (C6_possible_progress_filter 10 1 ⟨[⟨1, 0, 0⟩], []⟩ []).1 (by decide)

/-! ## C7: execute_plan OOM-driven permit escalation (compactor/src/driver.rs) -/

/-- The classification of a plan-execution error: `OutOfMemory` (which
triggers escalation) or any other kind. -/
inductive PlanError
  | oom
  | otherErr
deriving DecidableEq

/-- The permit-escalation loop of `execute_plan`.  `run permits` is the
outcome of executing the DataFusion plan while holding `permits` permits;
the result pairs the final `res` with the trace of permit counts
requested.  `res` starts as `Ok(Vec::new())` and the loop runs while
`requested_permits <= total`, doubling on `OutOfMemory` and stopping on any
other outcome. -/
def executePlanGo (run : Nat → Except PlanError (List Nat)) (total : Nat) :
    Nat → Nat → Except PlanError (List Nat) →
      Except PlanError (List Nat) × List Nat
  | _, 0, res => (res, [])
  | requested, fuel + 1, res =>
    if requested ≤ total then
      match run requested with
      | .ok v => (.ok v, [requested])
      | .error .oom =>
        let r := executePlanGo run total (2 * requested) fuel (.error .oom)
        (r.1, requested :: r.2)
      | .error .otherErr => (.error .otherErr, [requested])
    else (res, [])

/-- Embeds `execute_plan`: start with one permit; `total + 1` loop iterations are
an upper bound (the permit count doubles every iteration). -/
def execute_plan (run : Nat → Except PlanError (List Nat)) (total : Nat) :
    Except PlanError (List Nat) × List Nat :=
  executePlanGo run total 1 (total + 1) (.ok [])

lemma executePlanGo_overflow (run : Nat → Except PlanError (List Nat))
    (total requested fuel : Nat) (res : Except PlanError (List Nat))
    (h : ¬ requested ≤ total) :
    executePlanGo run total requested fuel res = (res, []) := by
  cases fuel with
  | zero => rfl
  | succ f => rw [executePlanGo, if_neg h]

lemma executePlanGo_props (run : Nat → Except PlanError (List Nat)) (total : Nat) :
    ∀ (fuel requested : Nat) (res0 : Except PlanError (List Nat)),
      0 < requested → requested ≤ total → total < requested * 2 ^ fuel →
      ∃ k,
        (executePlanGo run total requested fuel res0).2 =
          (List.range (k + 1)).map (fun i => requested * 2 ^ i) ∧
        (∀ i < k, run (requested * 2 ^ i) = .error .oom) ∧
        (∀ i ≤ k, requested * 2 ^ i ≤ total) ∧
        (∀ v, run (requested * 2 ^ k) = .ok v →
          (executePlanGo run total requested fuel res0).1 = .ok v) ∧
        (run (requested * 2 ^ k) = .error .otherErr →
          (executePlanGo run total requested fuel res0).1 = .error .otherErr) ∧
        (run (requested * 2 ^ k) = .error .oom →
          (executePlanGo run total requested fuel res0).1 = .error .oom ∧
          total < requested * 2 ^ (k + 1)) := by
  intro fuel
  induction fuel with
  | zero =>
    intro requested res0 hpos hle hfuel
    simp only [pow_zero, Nat.mul_one] at hfuel
    omega
  | succ f ih =>
    intro requested res0 hpos hle hfuel
    rw [executePlanGo, if_pos hle]
    cases hrun : run requested with
    | ok v =>
      refine ⟨0, by rw [show List.range 1 = [0] from rfl]; simp, by omega, ?_, ?_, ?_, ?_⟩
      · intro i hi
        interval_cases i
        simpa using hle
      · intro v' hv'
        simp only [pow_zero, Nat.mul_one] at hv'
        rw [hrun] at hv'
        cases hv'
        rfl
      · intro hcon
        simp only [pow_zero, Nat.mul_one] at hcon
        rw [hrun] at hcon
        cases hcon
      · intro hcon
        simp only [pow_zero, Nat.mul_one] at hcon
        rw [hrun] at hcon
        cases hcon
    | error e =>
      cases e with
      | otherErr =>
        refine ⟨0, by rw [show List.range 1 = [0] from rfl]; simp, by omega, ?_, ?_, ?_, ?_⟩
        · intro i hi
          interval_cases i
          simpa using hle
        · intro v' hv'
          simp only [pow_zero, Nat.mul_one] at hv'
          rw [hrun] at hv'
          cases hv'
        · intro _
          rfl
        · intro hcon
          simp only [pow_zero, Nat.mul_one] at hcon
          rw [hrun] at hcon
          cases hcon
      | oom =>
        by_cases hnext : 2 * requested ≤ total
        · obtain ⟨k, hreqs, hoom, hbound, hok, hother, hoomres⟩ :=
            ih (2 * requested) (.error .oom) (by omega) hnext
              (by
                have : requested * 2 ^ (f + 1) = 2 * requested * 2 ^ f := by ring
                omega)
          refine ⟨k + 1, ?_, ?_, ?_, ?_, ?_, ?_⟩
          · simp only [hreqs]
            conv_rhs => rw [List.range_succ_eq_map]
            simp only [List.map_cons, List.map_map]
            rw [show requested * 2 ^ 0 = requested from by ring]
            congr 1
            refine List.map_congr_left ?_
            intro i _
            show 2 * requested * 2 ^ i = requested * 2 ^ (i + 1)
            ring
          · intro i hi
            cases i with
            | zero => simpa using hrun
            | succ j =>
              have : 2 * requested * 2 ^ j = requested * 2 ^ (j + 1) := by ring
              rw [← this]
              exact hoom j (by omega)
          · intro i hi
            cases i with
            | zero => simpa using hle
            | succ j =>
              have : 2 * requested * 2 ^ j = requested * 2 ^ (j + 1) := by ring
              rw [← this]
              exact hbound j (by omega)
          · intro v hv
            have heq : 2 * requested * 2 ^ k = requested * 2 ^ (k + 1) := by ring
            exact hok v (by rw [heq]; exact hv)
          · intro hv
            have heq : 2 * requested * 2 ^ k = requested * 2 ^ (k + 1) := by ring
            exact hother (by rw [heq]; exact hv)
          · intro hv
            have heq : 2 * requested * 2 ^ k = requested * 2 ^ (k + 1) := by ring
            obtain ⟨h1, h2⟩ := hoomres (by rw [heq]; exact hv)
            refine ⟨h1, ?_⟩
            have : 2 * requested * 2 ^ (k + 1) = requested * 2 ^ (k + 1 + 1) := by ring
            omega
        · refine ⟨0, ?_, ?_, ?_, ?_, ?_, ?_⟩
          · rw [executePlanGo_overflow run total _ _ _ hnext]
            rw [show List.range 1 = [0] from rfl]
            simp
          · intro i hi; omega
          · intro i hi
            interval_cases i
            simpa using hle
          · intro v' hv'
            simp only [pow_zero, Nat.mul_one] at hv'
            rw [hrun] at hv'
            cases hv'
          · intro hcon
            simp only [pow_zero, Nat.mul_one] at hcon
            rw [hrun] at hcon
            cases hcon
          · intro _
            rw [executePlanGo_overflow run total _ _ _ hnext]
            refine ⟨rfl, ?_⟩
            have : requested * 2 ^ (0 + 1) = 2 * requested := by ring
            omega

/-- C7.  Every compaction plan is first executed holding exactly one
semaphore permit; each time execution fails with `OutOfMemory` the requested
permit count is doubled and the plan re-executed, never requesting more than
the semaphore's total permits; an error of any other kind — or `OutOfMemory`
persisting at the largest request that fits within the total — stops the
loop and is returned to the caller. -/
theorem C7_execute_plan_oom_escalation :
    ∀ (run : Nat → Except PlanError (List Nat)) (total : Nat),
      1 ≤ total →
      ∃ k,
        (execute_plan run total).2 = (List.range (k + 1)).map (fun i => 2 ^ i) ∧
        (execute_plan run total).2.head? = some 1 ∧
        (∀ r ∈ (execute_plan run total).2, r ≤ total) ∧
        (∀ i < k, run (2 ^ i) = .error .oom) ∧
        (∀ v, run (2 ^ k) = .ok v → (execute_plan run total).1 = .ok v) ∧
        (run (2 ^ k) = .error .otherErr →
          (execute_plan run total).1 = .error .otherErr) ∧
        (run (2 ^ k) = .error .oom →
          (execute_plan run total).1 = .error .oom ∧ total < 2 ^ (k + 1)) := by
  intro run total htot
  have hfuel : total < 1 * 2 ^ (total + 1) := by
    have := Nat.lt_two_pow total
    have h2 : (2 : Nat) ^ total ≤ 2 ^ (total + 1) :=
      Nat.pow_le_pow_right (by omega) (by omega)
    omega
  obtain ⟨k, hreqs, hoom, hbound, hok, hother, hoomres⟩ :=
    executePlanGo_props run total (total + 1) 1 (.ok []) (by omega) htot hfuel
  refine ⟨k, ?_, ?_, ?_, ?_, ?_, ?_, ?_⟩
  · rw [execute_plan, hreqs]
    exact List.map_congr_left (fun i _ => by rw [one_mul])
  · rw [execute_plan, hreqs]
    rw [List.range_succ_eq_map, List.map_cons, List.head?_cons]
    norm_num
  · intro r hr
    rw [execute_plan, hreqs, List.mem_map] at hr
    obtain ⟨i, hi, rfl⟩ := hr
    rw [List.mem_range] at hi
    exact hbound i (by omega)
  · intro i hi
    have := hoom i hi
    rwa [one_mul] at this
  · intro v hv
    exact hok v (by rwa [one_mul])
  · intro hv
    exact hother (by rwa [one_mul])
  · intro hv
    obtain ⟨h1, h2⟩ := hoomres (by rwa [one_mul])
    rw [one_mul] at h2
    exact ⟨h1, h2⟩

/-- Witness for C7: with four total permits and a plan that runs out of
memory below four permits, the loop requests 1, 2 and then 4 permits and
succeeds at 4. -/
theorem C7_execute_plan_oom_escalation_witness :
    (execute_plan (fun n => if n < 4 then .error .oom else .ok [n]) 4).2 =
        [1, 2, 4] ∧
    (execute_plan (fun n => if n < 4 then .error .oom else .ok [n]) 4).1 =
        .ok [4] ∧
    (∃ k,
      (execute_plan (fun n => if n < 4 then .error .oom else .ok [n]) 4).2 =
        (List.range (k + 1)).map (fun i => 2 ^ i) ∧
      (execute_plan (fun n => if n < 4 then .error .oom else .ok [n]) 4).2.head? =
        some 1 ∧
      (∀ r ∈ (execute_plan (fun n => if n < 4 then .error .oom else .ok [n]) 4).2,
        r ≤ 4) ∧
      (∀ i < k, (fun n => if n < 4 then (.error .oom : Except PlanError (List Nat))
          else .ok [n]) (2 ^ i) = .error .oom) ∧
      (∀ v, (fun n => if n < 4 then (.error .oom : Except PlanError (List Nat))
          else .ok [n]) (2 ^ k) = .ok v →
        (execute_plan (fun n => if n < 4 then .error .oom else .ok [n]) 4).1 = .ok v) ∧
      ((fun n => if n < 4 then (.error .oom : Except PlanError (List Nat))
          else .ok [n]) (2 ^ k) = .error .otherErr →
        (execute_plan (fun n => if n < 4 then .error .oom else .ok [n]) 4).1 =
          .error .otherErr) ∧
      ((fun n => if n < 4 then (.error .oom : Except PlanError (List Nat))
          else .ok [n]) (2 ^ k) = .error .oom →
        (execute_plan (fun n => if n < 4 then .error .oom else .ok [n]) 4).1 =
          .error .oom ∧ 4 < 2 ^ (k + 1))) :=
  ⟨by decide, by decide,
    C7_execute_plan_oom_escalation (fun n => if n < 4 then .error .oom else .ok [n]) 4
      (by decide)⟩

/-! ## C5: persist worker sort-key compare-and-swap
(ingester/src/persist/worker.rs) -/

/-- A sort key stored in the catalog: its column names with their
corresponding column ids. -/
structure SortKeyVal where
  names : List String
  ids : List Nat
deriving DecidableEq

/-- Embeds `ColumnsByName::ids_for_names` over the table's column map. -/
def ids_for_names (columns : List (String × Nat)) (names : List String) : List Nat :=
  names.filterMap (fun n => (columns.find? (fun c => c.1 = n)).map (·.2))

/-- The catalog's answer to `cas_sort_key`: success, or a value mismatch
reporting the observed sort key names (optional — the partition may have
none) and ids. -/
inductive CasResult
  | casOk
  | mismatch (observedNames : Option (List String)) (observedIds : List Nat)
deriving DecidableEq

/-- Modelled from the spec: the catalog's `cas_sort_key(partition_id,
old_names, old_ids, new_names, new_ids)` (the catalog implementation is out
of scope): install the new key if the stored value equals the old one,
otherwise report a mismatch with the observed value.  Query errors are
retried with back-off inside the worker and are therefore not modelled. -/
def cas_sort_key (cat : Option SortKeyVal)
    (oldNames : Option (List String)) (oldIds : Option (List Nat))
    (newNames : List String) (newIds : List Nat) :
    CasResult × Option SortKeyVal :=
  if cat.map SortKeyVal.names = oldNames ∧ cat.map SortKeyVal.ids = oldIds then
    (.casOk, some ⟨newNames, newIds⟩)
  else
    (.mismatch (cat.map SortKeyVal.names) ((cat.map SortKeyVal.ids).getD []), cat)

/-- The worker-side cached sort key: the persist `Context`'s copy and the
`PartitionData`'s copy. -/
structure PersistCtx where
  ctxNames : Option (List String)
  ctxIds : Option (List Nat)
  partNames : Option (List String)
  partIds : Option (List Nat)
deriving DecidableEq

/-- Modelled from the spec: `Context::set_partition_sort_key` (persist
context.rs is not in these sources) updates the cached sort key in the
`Context`, which pushes it through into the `PartitionData` also. -/
def set_partition_sort_key (names : Option (List String))
    (ids : Option (List Nat)) : PersistCtx :=
  ⟨names, ids, names, ids⟩

/-- Modelled from the spec: the sort-key adjustment computed by
`compact_persisting_batch` (persist/compact.rs is not in these sources):
the data is sorted under the cached key extended by any tag columns of the
snapshot not yet covered; the second component is the catalog update
required, `none` when the cached key already covers the data. -/
def adjust_sort_key (cached : Option (List String)) (tagCols : List String) :
    List String × Option (List String) :=
  if (tagCols.filter (fun c => ¬ (cached.getD []).contains c)).isEmpty then
    (cached.getD [], none)
  else
    (cached.getD [] ++ tagCols.filter (fun c => ¬ (cached.getD []).contains c),
     some (cached.getD [] ++ tagCols.filter (fun c => ¬ (cached.getD []).contains c)))

/-- Embeds `update_catalog_sort_key` (one attempt of the CAS retry loop; query
errors retry internally and never surface).  Returns `none` on the
release-mode assertions that a matching-ids mismatch must expose matching
names; otherwise the persist outcome, the new catalog value, and the
updated worker cache:
  * CAS success — cache set to the new key, ok;
  * mismatch with the observed ids equal to the proposed ids — treated as
    success (idempotent concurrent update);
  * any other mismatch — cache set to the observed value and
    `ConcurrentSortKeyUpdate` (the error payload) returned. -/
def update_catalog_sort_key (columns : List (String × Nat))
    (cat : Option SortKeyVal) (ctx : PersistCtx)
    (oldNames : Option (List String)) (oldIds : Option (List Nat))
    (newNames : List String) :
    Option (Except (Option (List String) × List Nat) (List Nat) ×
      Option SortKeyVal × PersistCtx) :=
  match cas_sort_key cat oldNames oldIds newNames
      (ids_for_names columns newNames) with
  | (.casOk, cat') =>
      some (.ok (ids_for_names columns newNames), cat',
        set_partition_sort_key (some newNames)
          (some (ids_for_names columns newNames)))
  | (.mismatch obsN obsI, cat') =>
      if obsI = ids_for_names columns newNames then
        -- `assert!(observed_sort_key.is_some())` and
        -- `assert_eq!(sk, new_sort_key_str)`
        if obsN = some newNames then
          some (.ok (ids_for_names columns newNames), cat',
            set_partition_sort_key (some newNames)
              (some (ids_for_names columns newNames)))
        else
          none
      else
        some (.error (obsN, obsI), cat',
          set_partition_sort_key obsN (some obsI))

/-- The state of one persist job: the worker cache, the catalog, the upload
count, the sort key the most recently uploaded parquet file was produced
under, and whether that iteration performed a catalog sort-key update. -/
structure PersistJobState where
  ctx : PersistCtx
  catalog : Option SortKeyVal
  uploads : Nat
  dataSortKey : List String
  didCasUpdate : Bool
deriving DecidableEq

/-- Embeds `compact_and_upload`: read the cached sort key, compact, upload (one
upload per call), and run `update_catalog_sort_key` when the compaction
extended the key.  `.error` is `PersistError::ConcurrentSortKeyUpdate`,
making `run_task` restart at the compact step with the updated state. -/
def compact_and_upload (columns : List (String × Nat)) (tagCols : List String)
    (st : PersistJobState) :
    Option (Except PersistJobState PersistJobState) :=
  match (adjust_sort_key st.ctx.ctxNames tagCols).2 with
  | none =>
      some (.ok { st with
          uploads := st.uploads + 1,
          dataSortKey := (adjust_sort_key st.ctx.ctxNames tagCols).1,
          didCasUpdate := false })
  | some newNames =>
    match update_catalog_sort_key columns st.catalog st.ctx
        st.ctx.ctxNames st.ctx.ctxIds newNames with
    | none => none
    | some (.ok _, cat', ctx') =>
        some (.ok { st with
            uploads := st.uploads + 1,
            dataSortKey := (adjust_sort_key st.ctx.ctxNames tagCols).1,
            catalog := cat', ctx := ctx', didCasUpdate := true })
    | some (.error _, cat', ctx') =>
        some (.error { st with
            uploads := st.uploads + 1,
            dataSortKey := (adjust_sort_key st.ctx.ctxNames tagCols).1,
            catalog := cat', ctx := ctx', didCasUpdate := true })

/-- The `loop` in `run_task`: repeat `compact_and_upload` until it does not
fail with `ConcurrentSortKeyUpdate`; the resulting state is then registered
in the catalog (`update_catalog_parquet`).  `none` models a panic or fuel
exhaustion. -/
def run_persist_job (columns : List (String × Nat)) (tagCols : List String) :
    Nat → PersistJobState → Option PersistJobState
  | 0, _ => none
  | fuel + 1, st =>
    match compact_and_upload columns tagCols st with
    | none => none
    | some (.ok st') => some st'
    | some (.error st') => run_persist_job columns tagCols fuel st'

lemma adjust_key_of_update (cached : Option (List String))
    (tagCols newNames : List String)
    (h : (adjust_sort_key cached tagCols).2 = some newNames) :
    (adjust_sort_key cached tagCols).1 = newNames := by
  rw [adjust_sort_key] at h ⊢
  by_cases hmiss :
      (tagCols.filter (fun c => ¬ (cached.getD []).contains c)).isEmpty = true
  · rw [if_pos hmiss] at h
    cases h
  · rw [if_neg hmiss] at h ⊢
    exact Option.some_inj.mp h

lemma cas_sort_key_is_ok (cat : Option SortKeyVal)
    (oldNames : Option (List String)) (oldIds : Option (List Nat))
    (newNames : List String) (newIds : List Nat)
    (h : cat.map SortKeyVal.names = oldNames ∧ cat.map SortKeyVal.ids = oldIds) :
    cas_sort_key cat oldNames oldIds newNames newIds =
      (.casOk, some ⟨newNames, newIds⟩) := by
  rw [cas_sort_key, if_pos h]

lemma cas_sort_key_is_mismatch (cat : Option SortKeyVal)
    (oldNames : Option (List String)) (oldIds : Option (List Nat))
    (newNames : List String) (newIds : List Nat)
    (h : ¬ (cat.map SortKeyVal.names = oldNames ∧
            cat.map SortKeyVal.ids = oldIds)) :
    cas_sort_key cat oldNames oldIds newNames newIds =
      (.mismatch (cat.map SortKeyVal.names) ((cat.map SortKeyVal.ids).getD []),
        cat) := by
  rw [cas_sort_key, if_neg h]

lemma update_catalog_sort_key_casOk (columns : List (String × Nat))
    (cat : Option SortKeyVal) (ctx : PersistCtx)
    (oldNames : Option (List String)) (oldIds : Option (List Nat))
    (newNames : List String)
    (h : cat.map SortKeyVal.names = oldNames ∧ cat.map SortKeyVal.ids = oldIds) :
    update_catalog_sort_key columns cat ctx oldNames oldIds newNames =
      some (.ok (ids_for_names columns newNames),
        some ⟨newNames, ids_for_names columns newNames⟩,
        set_partition_sort_key (some newNames)
          (some (ids_for_names columns newNames))) := by
  rw [update_catalog_sort_key, cas_sort_key_is_ok _ _ _ _ _ h]

lemma update_catalog_sort_key_mismatch_same (columns : List (String × Nat))
    (cat : Option SortKeyVal) (ctx : PersistCtx)
    (oldNames : Option (List String)) (oldIds : Option (List Nat))
    (newNames : List String)
    (h : ¬ (cat.map SortKeyVal.names = oldNames ∧
            cat.map SortKeyVal.ids = oldIds))
    (hids : (cat.map SortKeyVal.ids).getD [] = ids_for_names columns newNames)
    (hnm : cat.map SortKeyVal.names = some newNames) :
    update_catalog_sort_key columns cat ctx oldNames oldIds newNames =
      some (.ok (ids_for_names columns newNames), cat,
        set_partition_sort_key (some newNames)
          (some (ids_for_names columns newNames))) := by
  rw [update_catalog_sort_key, cas_sort_key_is_mismatch _ _ _ _ _ h]
  simp [hids, hnm]

lemma update_catalog_sort_key_mismatch_ne (columns : List (String × Nat))
    (cat : Option SortKeyVal) (ctx : PersistCtx)
    (oldNames : Option (List String)) (oldIds : Option (List Nat))
    (newNames : List String)
    (h : ¬ (cat.map SortKeyVal.names = oldNames ∧
            cat.map SortKeyVal.ids = oldIds))
    (hids : ¬ (cat.map SortKeyVal.ids).getD [] = ids_for_names columns newNames) :
    update_catalog_sort_key columns cat ctx oldNames oldIds newNames =
      some (.error (cat.map SortKeyVal.names, (cat.map SortKeyVal.ids).getD []),
        cat,
        set_partition_sort_key (cat.map SortKeyVal.names)
          (some ((cat.map SortKeyVal.ids).getD []))) := by
  rw [update_catalog_sort_key, cas_sort_key_is_mismatch _ _ _ _ _ h]
  simp only [if_neg hids]

lemma compact_and_upload_cas_catalog (columns : List (String × Nat))
    (tagCols : List String) (st st' : PersistJobState)
    (h : compact_and_upload columns tagCols st = some (.ok st'))
    (hcas : st'.didCasUpdate = true) :
    st'.catalog =
      some ⟨st'.dataSortKey, ids_for_names columns st'.dataSortKey⟩ := by
  rw [compact_and_upload] at h
  cases hadj : (adjust_sort_key st.ctx.ctxNames tagCols).2 with
  | none =>
    simp only [hadj] at h
    injection h with h1
    injection h1 with h2
    rw [← h2] at hcas
    exact nomatch (hcas : (false : Bool) = true)
  | some newNames =>
    simp only [hadj] at h
    have hkey := adjust_key_of_update st.ctx.ctxNames tagCols newNames hadj
    by_cases hold : st.catalog.map SortKeyVal.names = st.ctx.ctxNames ∧
        st.catalog.map SortKeyVal.ids = st.ctx.ctxIds
    · rw [update_catalog_sort_key_casOk columns _ st.ctx _ _ newNames hold] at h
      injection h with h1
      injection h1 with h2
      rw [← h2]
      show (some ⟨newNames, ids_for_names columns newNames⟩ : Option SortKeyVal) =
        some ⟨(adjust_sort_key st.ctx.ctxNames tagCols).1,
          ids_for_names columns (adjust_sort_key st.ctx.ctxNames tagCols).1⟩
      rw [hkey]
    · by_cases hids : (st.catalog.map SortKeyVal.ids).getD [] =
          ids_for_names columns newNames
      · by_cases hnm : st.catalog.map SortKeyVal.names = some newNames
        · rw [update_catalog_sort_key_mismatch_same columns _ st.ctx _ _ newNames
            hold hids hnm] at h
          injection h with h1
          injection h1 with h2
          rw [← h2]
          show st.catalog = some ⟨(adjust_sort_key st.ctx.ctxNames tagCols).1,
            ids_for_names columns (adjust_sort_key st.ctx.ctxNames tagCols).1⟩
          rw [hkey]
          cases hc : st.catalog with
          | none =>
            rw [hc] at hnm
            cases hnm
          | some k =>
            rw [hc] at hnm hids
            simp only [Option.map_some', Option.some_inj, Option.getD_some] at hnm hids
            rw [show k = ⟨k.names, k.ids⟩ from rfl, hnm, hids]
        · -- the release-mode assertion: matching ids must expose matching names
          rw [update_catalog_sort_key, cas_sort_key_is_mismatch _ _ _ _ _ hold] at h
          simp only [if_pos hids, if_neg hnm] at h
          cases h
      · rw [update_catalog_sort_key_mismatch_ne columns _ st.ctx _ _ newNames
          hold hids] at h
        injection h with h1
        cases h1

/-- C5.  When the persist worker's catalog compare-and-swap of the sort key
reports a value mismatch: if the observed key equals the worker's proposed
new key, the CAS is treated as success and the job proceeds to register the
parquet file; otherwise the worker updates its cached sort key (in the
context and the partition) to the observed value and restarts the job at
the compact step; consequently a registered parquet file produced by an
iteration that updated the catalog sort key is always produced under the
sort key stored in the catalog. -/
theorem C5_sort_key_cas_mismatch :
    (∀ (columns : List (String × Nat)) (cat : Option SortKeyVal)
        (ctx : PersistCtx) (oldNames : Option (List String))
        (oldIds : Option (List Nat)) (newNames : List String),
      ¬ (cat.map SortKeyVal.names = oldNames ∧ cat.map SortKeyVal.ids = oldIds) →
      cat = some ⟨newNames, ids_for_names columns newNames⟩ →
      update_catalog_sort_key columns cat ctx oldNames oldIds newNames =
        some (.ok (ids_for_names columns newNames), cat,
          set_partition_sort_key (some newNames)
            (some (ids_for_names columns newNames)))) ∧
    (∀ (columns : List (String × Nat)) (cat : Option SortKeyVal)
        (ctx : PersistCtx) (oldNames : Option (List String))
        (oldIds : Option (List Nat)) (newNames : List String),
      ¬ (cat.map SortKeyVal.names = oldNames ∧ cat.map SortKeyVal.ids = oldIds) →
      ¬ (cat.map SortKeyVal.ids).getD [] = ids_for_names columns newNames →
      update_catalog_sort_key columns cat ctx oldNames oldIds newNames =
        some (.error (cat.map SortKeyVal.names, (cat.map SortKeyVal.ids).getD []),
          cat,
          ⟨cat.map SortKeyVal.names, some ((cat.map SortKeyVal.ids).getD []),
           cat.map SortKeyVal.names, some ((cat.map SortKeyVal.ids).getD [])⟩)) ∧
    (∀ (columns : List (String × Nat)) (tagCols : List String) (fuel : Nat)
        (st st' : PersistJobState),
      compact_and_upload columns tagCols st = some (.error st') →
      run_persist_job columns tagCols (fuel + 1) st =
        run_persist_job columns tagCols fuel st') ∧
    (∀ (columns : List (String × Nat)) (tagCols : List String) (fuel : Nat)
        (st stF : PersistJobState),
      run_persist_job columns tagCols fuel st = some stF →
      stF.didCasUpdate = true →
      stF.catalog =
        some ⟨stF.dataSortKey, ids_for_names columns stF.dataSortKey⟩) := by
  refine ⟨?_, ?_, ?_, ?_⟩
  · intro columns cat ctx oldNames oldIds newNames hmm hcat
    rw [update_catalog_sort_key, cas_sort_key, if_neg hmm, hcat]
    simp [ids_for_names]
  · intro columns cat ctx oldNames oldIds newNames hmm hne
    rw [update_catalog_sort_key, cas_sort_key, if_neg hmm]
    simp only [if_neg hne]
    rfl
  · intro columns tagCols fuel st st' h
    rw [run_persist_job, h]
  · intro columns tagCols fuel
    induction fuel with
    | zero =>
      intro st stF h _
      rw [run_persist_job] at h
      cases h
    | succ f ih =>
      intro st stF h hcas
      rw [run_persist_job] at h
      cases hcu : compact_and_upload columns tagCols st with
      | none => rw [hcu] at h; cases h
      | some r =>
        rw [hcu] at h
        cases r with
        | ok st' =>
          simp only [Option.some_inj] at h
          rw [← h] at hcas
          rw [← h]
          exact compact_and_upload_cas_catalog columns tagCols st st' hcu hcas
        | error st' =>
          exact ih st' stF h hcas

/-- Witness for C5: a worker whose cached key `[a, time]` is stale against a
catalog holding `[a, b, time]` observes a mismatch, restarts with the
observed key, extends it with the new tag column `c`, wins the CAS, and
registers the file under the catalog's final sort key after two uploads. -/
theorem C5_sort_key_cas_mismatch_witness :
    run_persist_job [("a", 1), ("b", 2), ("time", 3), ("c", 4)]
        ["a", "b", "time", "c"] 3
        ⟨⟨some ["a", "time"], some [1, 3], some ["a", "time"], some [1, 3]⟩,
         some ⟨["a", "b", "time"], [1, 2, 3]⟩, 0, [], false⟩ =
      some ⟨⟨some ["a", "b", "time", "c"], some [1, 2, 3, 4],
             some ["a", "b", "time", "c"], some [1, 2, 3, 4]⟩,
            some ⟨["a", "b", "time", "c"], [1, 2, 3, 4]⟩, 2,
            ["a", "b", "time", "c"], true⟩ ∧
    (some ⟨["a", "b", "time", "c"], [1, 2, 3, 4]⟩ : Option SortKeyVal) =
      some ⟨["a", "b", "time", "c"],
        ids_for_names [("a", 1), ("b", 2), ("time", 3), ("c", 4)]
          ["a", "b", "time", "c"]⟩ := by
  constructor
  · decide
  · have h := C5_sort_key_cas_mismatch.2.2.2
      [("a", 1), ("b", 2), ("time", 3), ("c", 4)] ["a", "b", "time", "c"] 3
      ⟨⟨some ["a", "time"], some [1, 3], some ["a", "time"], some [1, 3]⟩,
       some ⟨["a", "b", "time"], [1, 2, 3]⟩, 0, [], false⟩
      ⟨⟨some ["a", "b", "time", "c"], some [1, 2, 3, 4],
        some ["a", "b", "time", "c"], some [1, 2, 3, 4]⟩,
       some ⟨["a", "b", "time", "c"], [1, 2, 3, 4]⟩, 2,
       ["a", "b", "time", "c"], true⟩ (by decide) rfl
    exact h

end IoxSpec
